import Mathlib

set_option maxHeartbeats 1000000

/- Shallow embedding of src/src/httplib_start.c : the function mg_start, the
   startup orchestrator of the LibHTTP server core.  External collaborators
   (the allocator, the pthread primitives, the option table, the five
   configuration collaborators and the thread spawn primitive) are modelled
   as oracle fields of an environment record.  The heap is modelled as a set
   of live allocation identifiers handed out by a fresh counter and threaded
   through the computation; spawned threads and emitted diagnostics are
   recorded in the state as well. -/

structure ConfigOption where
  name : String
  default_value : Option String
deriving DecidableEq

/-- Modelled from the spec: the option table config_options lives outside the
startup source (the spec treats the option schema as out of scope).  A fixed
representative table: one option without a documented default, two plain
string defaults, and the numeric worker thread count option. -/
def config_options : List ConfigOption :=
  [⟨"cgi_interpreter", none⟩,
   ⟨"listening_ports", some "8080"⟩,
   ⟨"num_threads", some "50"⟩,
   ⟨"document_root", some "."⟩]

/-- Index of the num_threads option in the table, mirroring the NUM_THREADS
option index constant used by the source. -/
def NUM_THREADS : Nat := 2

/-- Modelled from the spec: the hard maximum for the worker thread count,
a header constant not part of the startup source. -/
def MAX_WORKER_THREADS : Int := 1024 * 64

def digitsVal : List Char → Nat → Nat
  | [], acc => acc
  | c :: cs, acc => if c.isDigit then digitsVal cs (acc * 10 + (c.toNat - 48)) else acc

/-- Modelled from the spec: the C library function atoi used by the source on
the stored num_threads string; parses an optional sign and a leading digit
sequence after whitespace. -/
def atoi (s : String) : Int :=
  let cs := s.toList.dropWhile (fun c => c = ' ' || c = '\t' || c = '\n' || c = '\r')
  match cs with
  | '-' :: rest => - ((digitsVal rest 0 : Nat) : Int)
  | '+' :: rest => ((digitsVal rest 0 : Nat) : Int)
  | _ => ((digitsVal cs 0 : Nat) : Int)

/-- Modelled from the spec: each option name must resolve to a known option
index; lookup of a name in the option table. -/
def get_option_index (name : String) : Option Nat :=
  config_options.findIdx? (fun o => o.name == name)

/-- The five external configuration collaborators invoked by mg_start, in
source order on a generic POSIX build with SSL compiled in. -/
inductive Collab
  | gpass
  | ssl
  | ports
  | uid
  | acl
deriving DecidableEq

/-- Observable events recorded while mg_start runs. -/
inductive Ev
  | cry (tag : String)
  | sleep
  | keyCreate
  | collab (c : Collab)
  | allocWorkerIds
  | spawnMaster
  | spawnAttempt (i : Nat)
  | initContextCb
deriving DecidableEq

/-- A thread created by this startup attempt and still running. -/
inductive ThreadKind
  | master
  | worker (i : Nat)
deriving DecidableEq

/-- Mutable ambient state of a startup attempt: a fresh allocation counter,
the set of live allocation identifiers, the running threads created by this
attempt, and the event trace. -/
structure St where
  nextAlloc : Nat
  live : Finset Nat
  threads : List ThreadKind
  events : List Ev
deriving DecidableEq

def St.init : St := ⟨0, ∅, [], []⟩

/-- Allocate a fresh heap object, returning its identifier. -/
def alloc (st : St) : Nat × St :=
  (st.nextAlloc,
   { st with nextAlloc := st.nextAlloc + 1, live := insert st.nextAlloc st.live })

/-- mg_free: release one heap object. -/
def mg_free (a : Nat) (st : St) : St :=
  { st with live := st.live.erase a }

def emit (e : Ev) (st : St) : St :=
  { st with events := st.events ++ [e] }

/-- mg_cry: emit a diagnostic through the logging hook. -/
def mg_cry (tag : String) (st : St) : St :=
  emit (Ev.cry tag) st

/-- The server context built by mg_start.  Heap backed members are stored as
the identifier of their allocation; config entries pair the identifier of the
duplicated string with its value. -/
structure MgCtx where
  ctxAlloc : Nat
  config : List (Option (Nat × String))
  systemName : Option Nat
  cfg_worker_threads : Nat
  workerthreadids : Option Nat
  client_wait_events : Option Nat
  client_socks : Option Nat
  masterthreadStarted : Bool
  workersStarted : Nat
deriving DecidableEq

/-- Oracle environment for one run of mg_start: the caller supplied option
list, the build variant, the prior value of the process wide TLS init
counter, and the success or failure outcome of every external call. -/
structure Env where
  options : Option (List String)
  tlsInitPrev : Nat
  altQueue : Bool
  callocCtxOk : Bool
  tlsKeyCreateOk : Bool
  mutexThreadOk : Bool
  condEmptyOk : Bool
  condFullOk : Bool
  mutexNonceOk : Bool
  hasInitContextCb : Bool
  gpassOk : Bool
  sslOk : Bool
  portsOk : Bool
  uidOk : Bool
  aclOk : Bool
  allocWorkerIdsOk : Bool
  allocEventsOk : Bool
  allocSocksOk : Bool
  eventCreateOk : Nat → Bool
  wtaAllocOk : Nat → Bool
  spawnMasterOk : Bool
  spawnWorkerOk : Nat → Bool

/-- One caller entering the TLS one time init gate: the atomic increment of
sTlsInit and the test of its result against 1 (source lines 63 and 82). -/
def tlsInitEnter (counter : Nat) : Nat × Bool :=
  (counter + 1, counter + 1 == 1)

/-- N callers racing through the TLS one time init gate.  The atomic
increment serializes the callers, so any interleaving is a sequence of
tlsInitEnter steps; returns the final counter, how many callers took the
key creating branch and how many took the sleeping branch. -/
def tlsInitRace : Nat → Nat → Nat × Nat × Nat
  | 0, c => (c, 0, 0)
  | n + 1, c =>
    let p := tlsInitEnter c
    let q := tlsInitRace n p.1
    (q.1, q.2.1 + (if p.2 then 1 else 0), q.2.2 + (if p.2 then 0 else 1))

/-- The option parsing loop of mg_start (source lines 126 to 144): names are
resolved to indices, a missing value or unknown name aborts, a duplicate
name raises a warning and frees the previously stored value.  Returns the
success flag together with the (possibly partially filled) config array, as
the C code mutates ctx.config in place. -/
def dupFree (config : List (Option (Nat × String))) (idx : Nat) (st : St) : St :=
  match config.getD idx none with
  | some old => mg_free old.1 (mg_cry "duplicate option" st)
  | none => st

def parseOpts : List String → List (Option (Nat × String)) → St →
    Bool × List (Option (Nat × String)) × St
  | [], config, st => (true, config, st)
  | [name], config, st =>
    (match get_option_index name with
     | none => (false, config, mg_cry "Invalid option" st)
     | some _ => (false, config, mg_cry "option value cannot be NULL" st))
  | name :: value :: rest, config, st =>
    match get_option_index name with
    | none => (false, config, mg_cry "Invalid option" st)
    | some idx =>
      parseOpts rest (config.set idx (some ((dupFree config idx st).nextAlloc, value)))
        (alloc (dupFree config idx st)).2

/-- The default filling loop of mg_start (source lines 147 to 152): every
still empty config slot whose table entry carries a non null default gets a
duplicated copy of that default. -/
def applyDefaults : List ConfigOption → Nat → List (Option (Nat × String)) → St →
    List (Option (Nat × String)) × St
  | [], _, config, st => (config, st)
  | o :: os, i, config, st =>
    match config.getD i none, o.default_value with
    | none, some dv =>
      applyDefaults os (i + 1) (config.set i (some (st.nextAlloc, dv))) (alloc st).2
    | _, _ => applyDefaults os (i + 1) config st

/-- List of the identifiers of every heap object owned by the context. -/
def ownedIds (ctx : MgCtx) : List Nat :=
  ctx.config.filterMap (fun o => o.map (fun p => p.1))
    ++ ctx.systemName.toList ++ ctx.workerthreadids.toList
    ++ ctx.client_wait_events.toList ++ ctx.client_socks.toList
    ++ [ctx.ctxAlloc]

/-- Modelled from the spec: free_context is defined outside the startup
source; per the spec rollback is the release of every resource allocated
during the failed startup attempt, so free_context frees every context owned
heap object, the context itself included. -/
def free_context (ctx : MgCtx) (st : St) : St :=
  (ownedIds ctx).foldl (fun s a => mg_free a s) st

/-- The chain of the five external configuration collaborators (source lines
167 to 175): a short circuit disjunction of negated calls, stopping at the
first collaborator that returns false. -/
def applyCollabs (env : Env) (st : St) : Bool × St :=
  let st := emit (Ev.collab Collab.gpass) st
  if !env.gpassOk then (false, st) else
  let st := emit (Ev.collab Collab.ssl) st
  if !env.sslOk then (false, st) else
  let st := emit (Ev.collab Collab.ports) st
  if !env.portsOk then (false, st) else
  let st := emit (Ev.collab Collab.uid) st
  if !env.uidOk then (false, st) else
  let st := emit (Ev.collab Collab.acl) st
  if !env.aclOk then (false, st) else (true, st)

/-- The event object creation loop of the alternative queue variant (source
lines 229 to 235): a creation failure is only logged, the loop continues. -/
def eventCreateLoop (env : Env) : Nat → Nat → St → St
  | 0, _, st => st
  | rem + 1, i, st =>
    let st := if env.eventCreateOk i then st else mg_cry "Error creating worker event" st
    eventCreateLoop env rem (i + 1) st

/-- The worker spawn loop of mg_start (source lines 259 to 292): allocate the
worker thread argument block, attempt the spawn; on failure free the block,
then either log and break (a later worker) or report fatal failure (the
first worker).  Returns none on the fatal case, otherwise the number of
workers actually spawned. -/
def addThread (t : ThreadKind) (st : St) : St :=
  { st with threads := st.threads ++ [t] }

def spawnLoop (env : Env) : Nat → Nat → St → Option Nat × St
  | _, 0, st => (some 0, st)
  | i, rem + 1, st =>
    if env.wtaAllocOk i then
      if env.spawnWorkerOk i then
        match spawnLoop env (i + 1) rem
            (addThread (ThreadKind.worker i) (emit (Ev.spawnAttempt i) (alloc st).2)) with
        | (some k, st2) => (some (k + 1), st2)
        | (none, st2) => (none, st2)
      else if i > 0 then
        (some 0, mg_cry "Cannot start worker thread"
          (mg_free st.nextAlloc (emit (Ev.spawnAttempt i) (alloc st).2)))
      else
        (none, mg_cry "Cannot create threads"
          (mg_free st.nextAlloc (emit (Ev.spawnAttempt i) (alloc st).2)))
    else if i > 0 then
      (some 0, mg_cry "Cannot start worker thread" st)
    else
      (none, mg_cry "Cannot create threads" st)

/-- The worker spawn loop dispatch of mg_start: fatal first worker failure
tears the context down, otherwise the number of spawned workers is stored. -/
def spawnPhase (env : Env) (ctx : MgCtx) (st : St) : Option MgCtx × St :=
  match spawnLoop env 0 ctx.cfg_worker_threads st with
  | (none, st2) => (none, free_context ctx st2)
  | (some k, st2) => (some { ctx with workersStarted := k }, st2)

/-- Final phase of mg_start (source lines 249 to 296): the optional context
init callback, the master thread spawn (whose result the source ignores) and
the worker spawn loop. -/
def finishStart (env : Env) (ctx : MgCtx) (st : St) : Option MgCtx × St :=
  let st1 := if env.hasInitContextCb then emit Ev.initContextCb st else st
  let st2 := emit Ev.spawnMaster st1
  let st3 := if env.spawnMasterOk then addThread ThreadKind.master st2 else st2
  spawnPhase env { ctx with masterthreadStarted := env.spawnMasterOk } st3

/-- Worker bookkeeping allocations of mg_start (source lines 196 to 237):
the worker id array, and under the alternative queue variant the per worker
event array and socket slot array.  The socket slot branch reproduces the
source test of client_wait_events where client_socks was meant. -/
def workerAllocsStage (env : Env) (ctx : MgCtx) (workerthreadcount : Int) (st : St) :
    Option MgCtx × St :=
  if workerthreadcount > 0 then
    let ctx := { ctx with cfg_worker_threads := workerthreadcount.toNat }
    if env.allocWorkerIdsOk then
      let p := alloc (emit Ev.allocWorkerIds st)
      let ctx := { ctx with workerthreadids := some p.1 }
      let st := p.2
      if env.altQueue then
        if env.allocEventsOk then
          let q := alloc st
          let ctx := { ctx with client_wait_events := some q.1 }
          let st := q.2
          let sockp : Option Nat × St :=
            if env.allocSocksOk then
              let r := alloc st
              (some r.1, r.2)
            else (none, st)
          let ctx := { ctx with client_socks := sockp.1 }
          let st := sockp.2
          if ctx.client_wait_events = none then
            let st := mg_cry "Not enough memory for worker socket array" st
            let st := match ctx.client_socks with
              | some s2 => mg_free s2 st
              | none => st
            let st := match ctx.workerthreadids with
              | some w => mg_free w st
              | none => st
            (none, free_context ctx st)
          else
            let st := eventCreateLoop env ctx.cfg_worker_threads 0 st
            finishStart env ctx st
        else
          let st := mg_cry "Not enough memory for worker event array" st
          let st := match ctx.workerthreadids with
            | some w => mg_free w st
            | none => st
          (none, free_context ctx st)
      else
        finishStart env ctx st
    else
      (none, free_context ctx (mg_cry "Not enough memory for worker thread ID array" st))
  else
    finishStart env ctx st

def configStr (config : List (Option (Nat × String))) (i : Nat) : Option String :=
  (config.getD i none).map (fun p => p.2)

/-- Worker thread count validation of mg_start (source lines 187 to 194):
atoi of the configured num_threads value, rejected when above the hard
maximum, never clamped. -/
def threadCountStage (env : Env) (ctx : MgCtx) (st : St) : Option MgCtx × St :=
  let workerthreadcount := atoi ((configStr ctx.config NUM_THREADS).getD "")
  if workerthreadcount > MAX_WORKER_THREADS then
    (none, free_context ctx (mg_cry "Too many worker threads" st))
  else
    workerAllocsStage env ctx workerthreadcount st

/-- Collaborator sequencing of mg_start: a false result from any collaborator
frees the context and fails the start. -/
def collabsStage (env : Env) (ctx : MgCtx) (st : St) : Option MgCtx × St :=
  let c := applyCollabs env st
  if c.1 then threadCountStage env ctx c.2
  else (none, free_context ctx c.2)

/-- Option parsing, defaults and system name phase of mg_start (source lines
126 to 163): a parse failure frees the partially filled context. -/
def configStage (env : Env) (ctx : MgCtx) (st : St) : Option MgCtx × St :=
  let r := parseOpts (env.options.getD []) ctx.config st
  match r with
  | (false, config, st) => (none, free_context { ctx with config := config } st)
  | (true, config, st) =>
    let d := applyDefaults config_options 0 config st
    let p := alloc d.2
    let ctx := { ctx with config := d.1, systemName := some p.1 }
    collabsStage env ctx p.2

/-- The combined result of the synchronization primitive initializations
(source lines 99 to 104); the condition variables exist only on the classic
queue build. -/
def syncInitOk (env : Env) : Bool :=
  env.mutexThreadOk && (env.altQueue || (env.condEmptyOk && env.condFullOk)) && env.mutexNonceOk

/-- Synchronization primitive phase of mg_start (source lines 99 to 112): on
failure the bare context is freed with mg_free, config is still empty. -/
def syncStage (env : Env) (ctx : MgCtx) (st : St) : Option MgCtx × St :=
  if syncInitOk env then
    configStage env ctx st
  else
    (none, mg_free ctx.ctxAlloc (mg_cry "Cannot initialize thread synchronization objects" st))

/-- TLS one time init phase of mg_start (source lines 63 to 93): the caller
whose atomic increment returns 1 creates the TLS key (a creation failure
aborts the start, decrementing the counter again); every other caller
sleeps briefly. -/
def tlsStage (env : Env) (ctx : MgCtx) (st : St) : Option MgCtx × St :=
  let e := tlsInitEnter env.tlsInitPrev
  if e.2 then
    if env.tlsKeyCreateOk then
      syncStage env ctx (emit Ev.keyCreate st)
    else
      (none, mg_free ctx.ctxAlloc (mg_cry "Cannot initialize thread local storage" st))
  else
    syncStage env ctx (emit Ev.sleep st)

/-- mg_start: the top level startup entry point of the server core, composed
of the phases above in source order. -/
def mg_start (env : Env) : Option MgCtx × St :=
  if env.callocCtxOk then
    let p := alloc St.init
    let ctx : MgCtx :=
      { ctxAlloc := p.1
        config := List.replicate config_options.length none
        systemName := none
        cfg_worker_threads := 0
        workerthreadids := none
        client_wait_events := none
        client_socks := none
        masterthreadStarted := false
        workersStarted := 0 }
    tlsStage env ctx p.2
  else (none, St.init)

/-- A fully cooperative oracle environment used by concrete runs; individual
fields are overridden per scenario. -/
def envAllOk : Env :=
  { options := none
    tlsInitPrev := 0
    altQueue := false
    callocCtxOk := true
    tlsKeyCreateOk := true
    mutexThreadOk := true
    condEmptyOk := true
    condFullOk := true
    mutexNonceOk := true
    hasInitContextCb := false
    gpassOk := true
    sslOk := true
    portsOk := true
    uidOk := true
    aclOk := true
    allocWorkerIdsOk := true
    allocEventsOk := true
    allocSocksOk := true
    eventCreateOk := fun _ => true
    wtaAllocOk := fun _ => true
    spawnMasterOk := true
    spawnWorkerOk := fun _ => true }

/- ------------------------------------------------------------------ -/
/- Specification side definitions, invariant helpers and concrete
   scenario environments.                                             -/
/- ------------------------------------------------------------------ -/

/-- Well formedness of a caller option list, mirroring the acceptance
condition of the parsing loop: names pair with values and every name
resolves to a known option index. -/
def optsWellFormed : List String → Bool
  | [] => true
  | [_] => false
  | n :: _ :: rest => (get_option_index n).isSome && optsWellFormed rest

/-- The last value the caller supplied for option index i. -/
def lastVal : List String → Nat → Option String
  | [], _ => none
  | [_], _ => none
  | n :: v :: rest, i =>
    match lastVal rest i with
    | some w => some w
    | none => if get_option_index n = some i then some v else none

/-- Spec side description of the configuration mapping after a successful
start: the last caller supplied value, else the documented default when the
table carries one. -/
def specConfigValue (opts : List String) (i : Nat) : Option String :=
  match lastVal opts i with
  | some v => some v
  | none => (config_options.getD i ⟨"", none⟩).default_value

/-- The worker thread count a given option list configures. -/
def cfgWorkerCount (opts : List String) : Int :=
  atoi ((specConfigValue opts NUM_THREADS).getD "")

/-- How many of the caller supplied names resolve to option index i. -/
def countIdx : List String → Nat → Nat
  | [], _ => 0
  | [_], _ => 0
  | n :: _ :: rest, i =>
    (if get_option_index n = some i then 1 else 0) + countIdx rest i

/-- The result of the worker spawn loop as a function of the oracles alone:
none means the fatal first worker failure, otherwise the number of workers
spawned starting at index i with rem slots left. -/
def spawnOutcome (env : Env) : Nat → Nat → Option Nat
  | _, 0 => some 0
  | i, rem + 1 =>
    if env.wtaAllocOk i && env.spawnWorkerOk i then
      (spawnOutcome env (i + 1) rem).map (fun k => k + 1)
    else if i > 0 then some 0 else none

/-- The worker threads the spawn loop leaves running. -/
def spawnedThreads (env : Env) : Nat → Nat → List ThreadKind
  | _, 0 => []
  | i, rem + 1 =>
    if env.wtaAllocOk i && env.spawnWorkerOk i then
      ThreadKind.worker i :: spawnedThreads env (i + 1) rem
    else []

/-- The events the worker spawn loop emits. -/
def spawnEvs (env : Env) : Nat → Nat → List Ev
  | _, 0 => []
  | i, rem + 1 =>
    if env.wtaAllocOk i then
      if env.spawnWorkerOk i then Ev.spawnAttempt i :: spawnEvs env (i + 1) rem
      else if i > 0 then [Ev.spawnAttempt i, Ev.cry "Cannot start worker thread"]
      else [Ev.spawnAttempt i, Ev.cry "Cannot create threads"]
    else if i > 0 then [Ev.cry "Cannot start worker thread"]
    else [Ev.cry "Cannot create threads"]

/-- The collaborator invocations an event trace records. -/
def collabTrace (evs : List Ev) : List Collab :=
  evs.filterMap (fun e => match e with | Ev.collab c => some c | _ => none)

/-- The collaborator sequence the spec prescribes: credential file, TLS,
ports, privilege drop, ACL, cut short directly after the first failure. -/
def specCollabOrder (env : Env) : List Collab :=
  Collab.gpass ::
    (if env.gpassOk then Collab.ssl ::
      (if env.sslOk then Collab.ports ::
        (if env.portsOk then Collab.uid ::
          (if env.uidOk then [Collab.acl] else []) else []) else []) else [])

/-- Conjunction of the five collaborator outcomes. -/
def collabsOk (env : Env) : Bool :=
  env.gpassOk && env.sslOk && env.portsOk && env.uidOk && env.aclOk

/-- The identifiers stored in the config array. -/
def configIdList (config : List (Option (Nat × String))) : List Nat :=
  config.filterMap (fun o => o.map (fun p => p.1))

/-- The event the TLS init phase of this call records. -/
def tlsEv (env : Env) : Ev :=
  if env.tlsInitPrev = 0 then Ev.keyCreate else Ev.sleep

/-- The freshly calloced zero initialized context. -/
def ctx0 : MgCtx :=
  { ctxAlloc := 0
    config := List.replicate config_options.length none
    systemName := none
    cfg_worker_threads := 0
    workerthreadids := none
    client_wait_events := none
    client_socks := none
    masterthreadStarted := false
    workersStarted := 0 }

/-- The state right after context allocation and the TLS init phase. -/
def st0 (env : Env) : St :=
  ⟨1, {0}, [], [tlsEv env]⟩

def envC1 : Env :=
  { envAllOk with spawnWorkerOk := fun _ => false, options := some ["num_threads", "2"] }

def envC2 : Env :=
  { envAllOk with altQueue := true, allocSocksOk := false, options := some ["num_threads", "2"] }

def envC6 : Env := { envAllOk with options := some [] }

def envC3w : Env := { envAllOk with portsOk := false, options := some [] }

def envC4w : Env :=
  { envAllOk with options := some ["num_threads", "3"], spawnWorkerOk := fun i => i == 0 }

def envC5w : Env := { envAllOk with options := some ["bogus", "x"] }

def envC6w : Env := { envAllOk with options := some ["num_threads", "7"] }

def envC7w : Env := { envAllOk with options := some ["num_threads", "70000"] }

def envC10w : Env := { envAllOk with options := some ["num_threads", "0"] }


/- ------------------------------------------------------------------ -/
/- General helper lemmas.                                             -/
/- ------------------------------------------------------------------ -/

lemma getD_set_self {α : Type} (l : List α) (i : Nat) (x d : α) (h : i < l.length) :
    (l.set i x).getD i d = x := by
  rw [List.getD, List.get?_eq_getElem?, List.getElem?_set_self h]
  rfl

lemma getD_set_ne {α : Type} (l : List α) (i j : Nat) (x d : α) (h : i ≠ j) :
    (l.set i x).getD j d = l.getD j d := by
  rw [List.getD, List.getD, List.get?_eq_getElem?, List.get?_eq_getElem?,
    List.getElem?_set, if_neg h]

lemma findIdx?_lt {α : Type} (p : α → Bool) :
    ∀ (l : List α) (s val : Nat), List.findIdx? p l s = some val → val < s + l.length := by
  intro l
  induction l with
  | nil => intro s val h; simp [List.findIdx?_nil] at h
  | cons a t ih =>
    intro s val h
    rw [List.findIdx?_cons] at h
    by_cases hp : p a
    · simp only [hp, if_true, Option.some.injEq] at h
      simp [← h]
    · simp only [hp, if_false] at h
      have := ih (s + 1) val h
      simp only [List.length_cons]
      omega

lemma get_option_index_lt (name : String) (val : Nat)
    (h : get_option_index name = some val) : val < config_options.length := by
  unfold get_option_index at h
  have := findIdx?_lt (fun o => o.name == name) config_options 0 val h
  omega

/- ------------------------------------------------------------------ -/
/- Heap release lemmas.                                               -/
/- ------------------------------------------------------------------ -/

lemma freeFold_live (l : List Nat) (st : St) :
    (l.foldl (fun s a => mg_free a s) st).live = st.live \ l.toFinset := by
  induction l generalizing st with
  | nil => simp
  | cons a t ih =>
    rw [List.foldl_cons, ih, List.toFinset_cons, Finset.insert_eq]
    simp only [mg_free, Finset.erase_eq]
    exact sdiff_sdiff ..

lemma freeFold_threads (l : List Nat) (st : St) :
    (l.foldl (fun s a => mg_free a s) st).threads = st.threads := by
  induction l generalizing st with
  | nil => rfl
  | cons a t ih => rw [List.foldl_cons, ih]; rfl

lemma freeFold_events (l : List Nat) (st : St) :
    (l.foldl (fun s a => mg_free a s) st).events = st.events := by
  induction l generalizing st with
  | nil => rfl
  | cons a t ih => rw [List.foldl_cons, ih]; rfl

lemma free_context_live (ctx : MgCtx) (st : St) :
    (free_context ctx st).live = st.live \ (ownedIds ctx).toFinset :=
  freeFold_live _ _

lemma free_context_threads (ctx : MgCtx) (st : St) :
    (free_context ctx st).threads = st.threads :=
  freeFold_threads _ _

lemma free_context_events (ctx : MgCtx) (st : St) :
    (free_context ctx st).events = st.events :=
  freeFold_events _ _

lemma free_context_live_empty (ctx : MgCtx) (st : St)
    (h : st.live ⊆ (ownedIds ctx).toFinset) : (free_context ctx st).live = ∅ := by
  rw [free_context_live]
  exact Finset.sdiff_eq_empty_iff_subset.mpr h

/- ------------------------------------------------------------------ -/
/- Config id bookkeeping lemmas.                                      -/
/- ------------------------------------------------------------------ -/

lemma configIdList_cons_some (q : Nat × String) (rest : List (Option (Nat × String))) :
    configIdList (some q :: rest) = q.1 :: configIdList rest := by
  simp [configIdList, List.filterMap_cons]

lemma configIdList_cons_none (rest : List (Option (Nat × String))) :
    configIdList (none :: rest) = configIdList rest := by
  simp [configIdList, List.filterMap_cons]

lemma mem_configIdList_set_self (config : List (Option (Nat × String))) (i : Nat)
    (p : Nat × String) (h : i < config.length) :
    p.1 ∈ configIdList (config.set i (some p)) := by
  induction config generalizing i with
  | nil => simp at h
  | cons o rest ih =>
    cases i with
    | zero => simp [List.set, configIdList_cons_some]
    | succ j =>
      have hj : j < rest.length := by simpa using h
      cases o with
      | none => simpa [List.set, configIdList_cons_none] using ih j hj
      | some q => simp [List.set, configIdList_cons_some, ih j hj]

lemma mem_configIdList_set_of_getD_none (config : List (Option (Nat × String))) (i : Nat)
    (x : Nat) (p : Nat × String) (h : config.getD i none = none)
    (hx : x ∈ configIdList config) : x ∈ configIdList (config.set i (some p)) := by
  induction config generalizing i with
  | nil => simp [configIdList] at hx
  | cons o rest ih =>
    cases i with
    | zero =>
      cases o with
      | none => simpa [List.set, configIdList_cons_some, configIdList_cons_none] using Or.inr hx
      | some q => simp [List.getD_cons_zero] at h
    | succ j =>
      rw [List.getD_cons_succ] at h
      cases o with
      | none =>
        rw [configIdList_cons_none] at hx
        simpa [List.set, configIdList_cons_none] using ih j h hx
      | some q =>
        rw [configIdList_cons_some] at hx
        rcases List.mem_cons.mp hx with hq | hr
        · simp [List.set, configIdList_cons_some, hq]
        · simp [List.set, configIdList_cons_some, ih j h hr]

lemma mem_configIdList_set_of_ne (config : List (Option (Nat × String))) (i : Nat)
    (x : Nat) (p old : Nat × String) (h : config.getD i none = some old)
    (hx : x ∈ configIdList config) (hne : x ≠ old.1) :
    x ∈ configIdList (config.set i (some p)) := by
  induction config generalizing i with
  | nil => simp [configIdList] at hx
  | cons o rest ih =>
    cases i with
    | zero =>
      cases o with
      | none => simp [List.getD_cons_zero] at h
      | some q =>
        rw [List.getD_cons_zero] at h
        rw [configIdList_cons_some] at hx
        rcases List.mem_cons.mp hx with hq | hr
        · injection h with h2
          subst h2
          exact absurd hq hne
        · simp [List.set, configIdList_cons_some, hr]
    | succ j =>
      rw [List.getD_cons_succ] at h
      cases o with
      | none =>
        rw [configIdList_cons_none] at hx
        simpa [List.set, configIdList_cons_none] using ih j h hx
      | some q =>
        rw [configIdList_cons_some] at hx
        rcases List.mem_cons.mp hx with hq | hr
        · simp [List.set, configIdList_cons_some, hq]
        · simp [List.set, configIdList_cons_some, ih j h hr]

/- ------------------------------------------------------------------ -/
/- Option parsing lemmas.                                             -/
/- ------------------------------------------------------------------ -/


lemma parseOpts_fst (opts : List String) (config : List (Option (Nat × String))) (st : St) :
    (parseOpts opts config st).1 = optsWellFormed opts := by
  induction opts, config, st using parseOpts.induct with
  | case1 config st => rfl
  | case2 name config st h => simp [parseOpts, optsWellFormed, h]
  | case3 name config st val h => simp [parseOpts, optsWellFormed, h]
  | case4 name value rest config st h => simp [parseOpts, optsWellFormed, h]
  | case5 name value rest config st val h ih =>
    simp only [parseOpts, h, optsWellFormed, Option.isSome_some, Bool.true_and]
    exact ih

lemma parseOpts_frame (opts : List String) (config : List (Option (Nat × String))) (st : St) :
    (parseOpts opts config st).2.2.threads = st.threads ∧
    (parseOpts opts config st).2.1.length = config.length ∧
    ∃ l, (parseOpts opts config st).2.2.events = st.events ++ l ∧
      ∀ e ∈ l, ∃ tag, e = Ev.cry tag := by
  induction opts, config, st using parseOpts.induct with
  | case1 config st => exact ⟨rfl, rfl, [], by simp [parseOpts], by simp⟩
  | case2 name config st h =>
    refine ⟨?_, ?_, [Ev.cry "Invalid option"], ?_, ?_⟩
    · simp [parseOpts, h, mg_cry, emit]
    · simp [parseOpts, h]
    · simp [parseOpts, h, mg_cry, emit]
    · intro e he
      rcases List.mem_singleton.mp he with rfl
      exact ⟨"Invalid option", rfl⟩
  | case3 name config st val h =>
    refine ⟨?_, ?_, [Ev.cry "option value cannot be NULL"], ?_, ?_⟩
    · simp [parseOpts, h, mg_cry, emit]
    · simp [parseOpts, h]
    · simp [parseOpts, h, mg_cry, emit]
    · intro e he
      rcases List.mem_singleton.mp he with rfl
      exact ⟨"option value cannot be NULL", rfl⟩
  | case4 name value rest config st h =>
    refine ⟨?_, ?_, [Ev.cry "Invalid option"], ?_, ?_⟩
    · simp [parseOpts, h, mg_cry, emit]
    · simp [parseOpts, h]
    · simp [parseOpts, h, mg_cry, emit]
    · intro e he
      rcases List.mem_singleton.mp he with rfl
      exact ⟨"Invalid option", rfl⟩
  | case5 name value rest config st val h ih =>
    simp only [parseOpts, h]
    cases hdup : config.getD val none with
    | none =>
      simp only [dupFree, hdup, alloc, List.length_set] at ih ⊢
      exact ih
    | some old =>
      simp only [dupFree, hdup, alloc, mg_free, mg_cry, emit, List.length_set] at ih ⊢
      obtain ⟨h1, h2, l, hl, hc⟩ := ih
      refine ⟨h1, h2, Ev.cry "duplicate option" :: l, by simpa using hl, ?_⟩
      intro e he
      rcases List.mem_cons.mp he with rfl | he2
      · exact ⟨"duplicate option", rfl⟩
      · exact hc e he2

lemma parseOpts_values (opts : List String) (config : List (Option (Nat × String))) (st : St)
    (hlen : config.length = config_options.length) (hwf : optsWellFormed opts = true) :
    ∀ i, configStr (parseOpts opts config st).2.1 i =
      match lastVal opts i with
      | some v => some v
      | none => configStr config i := by
  revert hlen hwf
  induction opts, config, st using parseOpts.induct with
  | case1 config st => intro _ _ i; simp [parseOpts, lastVal]
  | case2 name config st h => intro _ hwf; simp [optsWellFormed] at hwf
  | case3 name config st val h => intro _ hwf; simp [optsWellFormed] at hwf
  | case4 name value rest config st h => intro _ hwf; simp [optsWellFormed, h] at hwf
  | case5 name value rest config st val h ih =>
    intro hlen hwf i
    have hwf2 : optsWellFormed rest = true := by
      simp only [optsWellFormed, h, Option.isSome_some, Bool.true_and] at hwf
      exact hwf
    have hvlt : val < config.length := hlen ▸ get_option_index_lt name val h
    simp only [parseOpts, h]
    rw [ih (by simpa [List.length_set] using hlen) hwf2 i]
    cases hl : lastVal rest i with
    | some w => simp [lastVal, hl]
    | none =>
      simp only [lastVal, hl]
      by_cases hi : val = i
      · subst hi
        rw [h, if_pos rfl]
        unfold configStr
        rw [getD_set_self _ _ _ _ hvlt]
        rfl
      · have hne : ¬ (some val = some i) := by simpa using hi
        rw [h, if_neg hne]
        unfold configStr
        rw [getD_set_ne _ _ _ _ _ hi]

lemma parseOpts_live (opts : List String) (config : List (Option (Nat × String))) (st : St)
    (base : Finset Nat) (hlen : config.length = config_options.length)
    (hsub : st.live ⊆ (configIdList config).toFinset ∪ base) :
    (parseOpts opts config st).2.2.live ⊆
      (configIdList (parseOpts opts config st).2.1).toFinset ∪ base := by
  revert hlen hsub
  induction opts, config, st using parseOpts.induct with
  | case1 config st => intro _ hsub; simpa [parseOpts] using hsub
  | case2 name config st h => intro _ hsub; simpa [parseOpts, h, mg_cry, emit] using hsub
  | case3 name config st val h => intro _ hsub; simpa [parseOpts, h, mg_cry, emit] using hsub
  | case4 name value rest config st h => intro _ hsub; simpa [parseOpts, h, mg_cry, emit] using hsub
  | case5 name value rest config st val h ih =>
    intro hlen hsub
    have hvlt : val < config.length := hlen ▸ get_option_index_lt name val h
    simp only [parseOpts, h]
    apply ih
    · simpa [List.length_set] using hlen
    · cases hdup : config.getD val none with
      | none =>
        simp only [dupFree, hdup, alloc]
        intro x hx
        rcases Finset.mem_insert.mp hx with rfl | hx2
        · exact Finset.mem_union_left _ (List.mem_toFinset.mpr
            (mem_configIdList_set_self _ _ _ hvlt))
        · rcases Finset.mem_union.mp (hsub hx2) with hc | hb
          · exact Finset.mem_union_left _ (List.mem_toFinset.mpr
              (mem_configIdList_set_of_getD_none _ _ _ _ hdup (List.mem_toFinset.mp hc)))
          · exact Finset.mem_union_right _ hb
      | some old =>
        simp only [dupFree, hdup, alloc, mg_free, mg_cry, emit]
        intro x hx
        rcases Finset.mem_insert.mp hx with rfl | hx2
        · exact Finset.mem_union_left _ (List.mem_toFinset.mpr
            (mem_configIdList_set_self _ _ _ hvlt))
        · obtain ⟨hne, hmem⟩ := Finset.mem_erase.mp hx2
          rcases Finset.mem_union.mp (hsub hmem) with hc | hb
          · exact Finset.mem_union_left _ (List.mem_toFinset.mpr
              (mem_configIdList_set_of_ne _ _ _ _ _ hdup (List.mem_toFinset.mp hc) hne))
          · exact Finset.mem_union_right _ hb

/- ------------------------------------------------------------------ -/
/- Default filling lemmas.                                            -/
/- ------------------------------------------------------------------ -/

lemma applyDefaults_step_else (o : ConfigOption) (os : List ConfigOption) (i : Nat)
    (config : List (Option (Nat × String))) (st : St)
    (hno : ∀ dv : String, config.getD i none = none → o.default_value = some dv → False) :
    applyDefaults (o :: os) i config st = applyDefaults os (i + 1) config st := by
  cases hdup : config.getD i none with
  | none =>
    cases hdv : o.default_value with
    | none => simp only [applyDefaults, hdup, hdv]
    | some dv => exact (hno dv hdup hdv).elim
  | some old =>
    cases hdv : o.default_value with
    | none => simp only [applyDefaults, hdup, hdv]
    | some dv => simp only [applyDefaults, hdup, hdv]

lemma applyDefaults_frame (table : List ConfigOption) (i0 : Nat)
    (config : List (Option (Nat × String))) (st : St) :
    (applyDefaults table i0 config st).2.threads = st.threads ∧
    (applyDefaults table i0 config st).2.events = st.events ∧
    (applyDefaults table i0 config st).1.length = config.length := by
  induction table, i0, config, st using applyDefaults.induct with
  | case1 x config st => exact ⟨rfl, rfl, rfl⟩
  | case2 o os i config st dv hdv hdup ih =>
    simp only [applyDefaults, hdup, hdv]
    obtain ⟨h1, h2, h3⟩ := ih
    exact ⟨by simpa [alloc] using h1, by simpa [alloc] using h2,
      by simpa [List.length_set] using h3⟩
  | case3 o os i config st hno ih =>
    rw [applyDefaults_step_else _ _ _ _ _ hno]
    exact ih

lemma applyDefaults_values (table : List ConfigOption) (i0 : Nat)
    (config : List (Option (Nat × String))) (st : St)
    (hlen : i0 + table.length ≤ config.length) :
    ∀ i, configStr (applyDefaults table i0 config st).1 i =
      match configStr config i with
      | some v => some v
      | none => if i0 ≤ i then (table.getD (i - i0) ⟨"", none⟩).default_value else none := by
  revert hlen
  induction table, i0, config, st using applyDefaults.induct with
  | case1 x config st =>
    intro _ i
    simp only [applyDefaults]
    cases hc : configStr config i with
    | some v => rfl
    | none => simp
  | case2 o os i config st dv hdv hdup ih =>
    intro hlen j
    have hi : i < config.length := by
      simp only [List.length_cons] at hlen; omega
    simp only [applyDefaults, hdup, hdv]
    rw [ih (by simp only [List.length_set, List.length_cons] at hlen ⊢; omega) j]
    by_cases hj : i = j
    · subst hj
      have h1 : configStr (config.set i (some (st.nextAlloc, dv))) i = some dv := by
        unfold configStr; rw [getD_set_self _ _ _ _ hi]; rfl
      have h2 : configStr config i = none := by
        unfold configStr; rw [hdup]; rfl
      rw [h1, h2]
      simp [Nat.sub_self, hdv]
    · have h1 : configStr (config.set i (some (st.nextAlloc, dv))) j = configStr config j := by
        unfold configStr; rw [getD_set_ne _ _ _ _ _ hj]
      rw [h1]
      cases hc : configStr config j with
      | some v => rfl
      | none =>
        by_cases hij : i + 1 ≤ j
        · have hij2 : i ≤ j := by omega
          have h3 : j - i = (j - (i + 1)) + 1 := by omega
          simp only [hij, hij2, if_true]
          rw [h3, List.getD_cons_succ]
        · have hij2 : ¬ (i ≤ j) := by omega
          simp only [hij, hij2, if_false]
  | case3 o os i config st hno ih =>
    intro hlen j
    rw [applyDefaults_step_else _ _ _ _ _ hno]
    rw [ih (by simp only [List.length_cons] at hlen; omega) j]
    by_cases hj : i = j
    · subst hj
      cases hc : configStr config i with
      | some v => rfl
      | none =>
        have hdup : config.getD i none = none := by
          unfold configStr at hc
          cases hg : config.getD i none with
          | none => rfl
          | some q => rw [hg] at hc; simp at hc
        have hdefnone : o.default_value = none := by
          cases hd : o.default_value with
          | none => rfl
          | some dv => exact (hno dv hdup hd).elim
        have hno2 : ¬ (i + 1 ≤ i) := by omega
        simp [hno2, hdefnone, Nat.sub_self]
    · cases hc : configStr config j with
      | some v => rfl
      | none =>
        by_cases hij : i + 1 ≤ j
        · have hij2 : i ≤ j := by omega
          have h3 : j - i = (j - (i + 1)) + 1 := by omega
          simp only [hij, hij2, if_true]
          rw [h3, List.getD_cons_succ]
        · have hij2 : ¬ (i ≤ j) := by omega
          simp only [hij, hij2, if_false]

lemma applyDefaults_live (table : List ConfigOption) (i0 : Nat)
    (config : List (Option (Nat × String))) (st : St) (base : Finset Nat)
    (hlen : i0 + table.length ≤ config.length)
    (hsub : st.live ⊆ (configIdList config).toFinset ∪ base) :
    (applyDefaults table i0 config st).2.live ⊆
      (configIdList (applyDefaults table i0 config st).1).toFinset ∪ base := by
  revert hlen hsub
  induction table, i0, config, st using applyDefaults.induct with
  | case1 x config st => intro _ hsub; simpa [applyDefaults] using hsub
  | case2 o os i config st dv hdv hdup ih =>
    intro hlen hsub
    have hi : i < config.length := by simp only [List.length_cons] at hlen; omega
    simp only [applyDefaults, hdup, hdv]
    apply ih
    · simp only [List.length_set, List.length_cons] at hlen ⊢
      omega
    · simp only [alloc]
      intro x hx
      rcases Finset.mem_insert.mp hx with rfl | hx2
      · exact Finset.mem_union_left _ (List.mem_toFinset.mpr
          (mem_configIdList_set_self _ _ _ hi))
      · rcases Finset.mem_union.mp (hsub hx2) with hc | hb
        · exact Finset.mem_union_left _ (List.mem_toFinset.mpr
            (mem_configIdList_set_of_getD_none _ _ _ _ hdup (List.mem_toFinset.mp hc)))
        · exact Finset.mem_union_right _ hb
  | case3 o os i config st hno ih =>
    intro hlen hsub
    rw [applyDefaults_step_else _ _ _ _ _ hno]
    exact ih (by simp only [List.length_cons] at hlen; omega) hsub

/- ------------------------------------------------------------------ -/
/- Collaborator sequencing lemmas.                                    -/
/- ------------------------------------------------------------------ -/

lemma applyCollabs_spec (env : Env) (st : St) :
    (applyCollabs env st).1 = collabsOk env ∧
    (applyCollabs env st).2.live = st.live ∧
    (applyCollabs env st).2.threads = st.threads ∧
    (applyCollabs env st).2.events = st.events ++ (specCollabOrder env).map Ev.collab := by
  cases hg : env.gpassOk <;> cases hs : env.sslOk <;> cases hp : env.portsOk <;>
    cases hu : env.uidOk <;> cases ha : env.aclOk <;>
    simp [applyCollabs, collabsOk, specCollabOrder, emit, hg, hs, hp, hu, ha]

lemma collabTrace_append (a b : List Ev) :
    collabTrace (a ++ b) = collabTrace a ++ collabTrace b := by
  simp [collabTrace, List.filterMap_append]

lemma collabTrace_map_collab (l : List Collab) :
    collabTrace (l.map Ev.collab) = l := by
  induction l with
  | nil => rfl
  | cons c t ih => simp [collabTrace, List.filterMap_cons] at ih ⊢; exact ih

lemma collabTrace_no_collab (l : List Ev) (hc : ∀ c, Ev.collab c ∉ l) :
    collabTrace l = [] := by
  induction l with
  | nil => rfl
  | cons e t ih =>
    have h2 := ih (fun c hc2 => hc c (List.mem_cons_of_mem _ hc2))
    cases e with
    | collab c => exact absurd (List.mem_cons_self _ _) (hc c)
    | cry tag => simpa [collabTrace, List.filterMap_cons] using h2
    | sleep => simpa [collabTrace, List.filterMap_cons] using h2
    | keyCreate => simpa [collabTrace, List.filterMap_cons] using h2
    | allocWorkerIds => simpa [collabTrace, List.filterMap_cons] using h2
    | spawnMaster => simpa [collabTrace, List.filterMap_cons] using h2
    | spawnAttempt i => simpa [collabTrace, List.filterMap_cons] using h2
    | initContextCb => simpa [collabTrace, List.filterMap_cons] using h2

/- ------------------------------------------------------------------ -/
/- Worker spawn loop lemmas.                                          -/
/- ------------------------------------------------------------------ -/

lemma spawnLoop_spec (env : Env) (rem : Nat) : ∀ (i : Nat) (st : St),
    (spawnLoop env i rem st).1 = spawnOutcome env i rem ∧
    (spawnLoop env i rem st).2.threads = st.threads ++ spawnedThreads env i rem ∧
    (spawnLoop env i rem st).2.events = st.events ++ spawnEvs env i rem := by
  induction rem with
  | zero => intro i st; simp [spawnLoop, spawnOutcome, spawnedThreads, spawnEvs]
  | succ rem ih =>
    intro i st
    by_cases hw : env.wtaAllocOk i
    · by_cases hs : env.spawnWorkerOk i
      · obtain ⟨h1, h2, h3⟩ :=
          ih (i + 1) (addThread (ThreadKind.worker i) (emit (Ev.spawnAttempt i) (alloc st).2))
        cases ho : spawnLoop env (i + 1) rem
            (addThread (ThreadKind.worker i) (emit (Ev.spawnAttempt i) (alloc st).2)) with
        | mk o st2 =>
          rw [ho] at h1 h2 h3
          cases o with
          | some k =>
            simp only [spawnLoop, hw, hs, if_true, ho]
            refine ⟨?_, ?_, ?_⟩
            · simp [spawnOutcome, hw, hs, ← h1]
            · simpa [spawnedThreads, hw, hs, addThread, emit, alloc] using h2
            · simpa [spawnEvs, hw, hs, addThread, emit, alloc] using h3
          | none =>
            simp only [spawnLoop, hw, hs, if_true, ho]
            refine ⟨?_, ?_, ?_⟩
            · simp [spawnOutcome, hw, hs, ← h1]
            · simpa [spawnedThreads, hw, hs, addThread, emit, alloc] using h2
            · simpa [spawnEvs, hw, hs, addThread, emit, alloc] using h3
      · by_cases hi : i > 0
        · refine ⟨?_, ?_, ?_⟩ <;>
            simp [spawnLoop, spawnOutcome, spawnedThreads, spawnEvs, hw, hs, hi,
              alloc, emit, mg_free, mg_cry, addThread]
        · refine ⟨?_, ?_, ?_⟩ <;>
            simp [spawnLoop, spawnOutcome, spawnedThreads, spawnEvs, hw, hs, hi,
              alloc, emit, mg_free, mg_cry, addThread]
    · by_cases hi : i > 0
      · refine ⟨?_, ?_, ?_⟩ <;>
          simp [spawnLoop, spawnOutcome, spawnedThreads, spawnEvs, hw, hi, mg_cry, emit]
      · refine ⟨?_, ?_, ?_⟩ <;>
          simp [spawnLoop, spawnOutcome, spawnedThreads, spawnEvs, hw, hi, mg_cry, emit]

/- ------------------------------------------------------------------ -/
/- TLS init gate lemmas.                                              -/
/- ------------------------------------------------------------------ -/

lemma tlsInitRace_ge_one (n : Nat) : ∀ c : Nat, 1 ≤ c →
    (tlsInitRace n c).2.1 = 0 ∧ (tlsInitRace n c).2.2 = n := by
  induction n with
  | zero => intro c _; simp [tlsInitRace]
  | succ n ih =>
    intro c hc
    have hb : (c + 1 == 1) = false := by
      simp only [beq_eq_false_iff_ne, ne_eq]
      omega
    obtain ⟨h1, h2⟩ := ih (c + 1) (by omega)
    simp only [tlsInitRace, tlsInitEnter, hb]
    simp [h1, h2]

/- ------------------------------------------------------------------ -/
/- Pipeline composition lemmas.                                       -/
/- ------------------------------------------------------------------ -/

lemma configStr_replicate (n i : Nat) :
    configStr (List.replicate n (none : Option (Nat × String))) i = none := by
  unfold configStr List.getD
  simp only [List.get?_eq_getElem?, List.getElem?_replicate]
  split <;> rfl

lemma cfgIds_ctxAlloc_subset_owned (ctx : MgCtx) :
    (configIdList ctx.config).toFinset ∪ {ctx.ctxAlloc} ⊆ (ownedIds ctx).toFinset := by
  intro x hx
  rw [List.mem_toFinset, ownedIds]
  rcases Finset.mem_union.mp hx with hc | hb
  · exact List.mem_append.mpr (Or.inl (List.mem_append.mpr (Or.inl (List.mem_append.mpr
      (Or.inl (List.mem_append.mpr (Or.inl (List.mem_append.mpr
        (Or.inl (List.mem_toFinset.mp hc))))))))))
  · exact List.mem_append.mpr (Or.inr (by simp [Finset.mem_singleton.mp hb]))

lemma mg_start_pipe (env : Env)
    (hc : env.callocCtxOk = true)
    (htls : env.tlsInitPrev = 0 → env.tlsKeyCreateOk = true)
    (hsync : syncInitOk env = true) :
    mg_start env = configStage env ctx0 (st0 env) := by
  by_cases hp : env.tlsInitPrev = 0
  · simp [mg_start, tlsStage, syncStage, tlsInitEnter, hc, hp, htls hp, hsync, ctx0, st0, tlsEv,
      alloc, emit, St.init]
  · have hb : (env.tlsInitPrev + 1 == 1) = false := by
      simp only [beq_eq_false_iff_ne, ne_eq]
      omega
    simp [mg_start, tlsStage, syncStage, tlsInitEnter, hc, hb, hsync, ctx0, st0, tlsEv, hp,
      alloc, emit, St.init]

lemma configStage_success (env : Env) (opts : List String)
    (hopts : env.options = some opts) (hwf : optsWellFormed opts = true) :
    ∃ ctx1 st1,
      configStage env ctx0 (st0 env) = collabsStage env ctx1 st1 ∧
      ctx1.ctxAlloc = 0 ∧
      (∀ i, configStr ctx1.config i = specConfigValue opts i) ∧
      ctx1.config.length = config_options.length ∧
      ctx1.cfg_worker_threads = 0 ∧
      ctx1.workerthreadids = none ∧
      ctx1.client_wait_events = none ∧
      ctx1.client_socks = none ∧
      st1.threads = [] ∧
      st1.live ⊆ (ownedIds ctx1).toFinset ∧
      collabTrace st1.events = [] ∧
      (∀ j, Ev.spawnAttempt j ∉ st1.events) ∧
      Ev.spawnMaster ∉ st1.events ∧
      Ev.allocWorkerIds ∉ st1.events := by
  obtain ⟨hthreads, hlen, l, hevents, hcry⟩ := parseOpts_frame opts ctx0.config (st0 env)
  have hflag := parseOpts_fst opts ctx0.config (st0 env)
  rw [hwf] at hflag
  have hlen0 : ctx0.config.length = config_options.length := by
    simp [ctx0]
  have hvals := parseOpts_values opts ctx0.config (st0 env) hlen0 hwf
  have hlive := parseOpts_live opts ctx0.config (st0 env) {0} hlen0
    (by intro x hx
        simp only [st0] at hx
        exact Finset.mem_union_right _ hx)
  cases hr : parseOpts opts ctx0.config (st0 env) with
  | mk b rest =>
    cases rest with
    | mk config1 stp =>
      rw [hr] at hflag hthreads hlen hevents hlive hvals
      subst hflag
      have hthreads2 : stp.threads = (st0 env).threads := hthreads
      have hlen2 : config1.length = ctx0.config.length := hlen
      have hevents2 : stp.events = (st0 env).events ++ l := hevents
      have hlive2 : stp.live ⊆ (configIdList config1).toFinset ∪ {0} := hlive
      have hvals2 : ∀ i, configStr config1 i =
          match lastVal opts i with
          | some v => some v
          | none => configStr ctx0.config i := hvals
      have hlenc : config1.length = config_options.length := hlen2.trans hlen0
      obtain ⟨hdthreads, hdevents, hdlen⟩ := applyDefaults_frame config_options 0 config1 stp
      have hdlen2 : 0 + config_options.length ≤ config1.length := by omega
      have hdvals := applyDefaults_values config_options 0 config1 stp hdlen2
      have hdlive := applyDefaults_live config_options 0 config1 stp {0} hdlen2 hlive2
      cases hd : applyDefaults config_options 0 config1 stp with
      | mk config2 std =>
        rw [hd] at hdthreads hdevents hdlen hdvals hdlive
        have hdthreads2 : std.threads = stp.threads := hdthreads
        have hdevents2 : std.events = stp.events := hdevents
        have hdlen3 : config2.length = config1.length := hdlen
        have hdlive2 : std.live ⊆ (configIdList config2).toFinset ∪ {0} := hdlive
        have hdvals2 : ∀ i, configStr config2 i =
            match configStr config1 i with
            | some v => some v
            | none => if 0 ≤ i then
                (config_options.getD (i - 0) ⟨"", none⟩).default_value else none := hdvals
        refine ⟨{ ctx0 with config := config2, systemName := some std.nextAlloc },
          (alloc std).2, ?_, rfl, ?_, ?_, rfl, rfl, rfl, rfl, ?_, ?_, ?_, ?_, ?_, ?_⟩
        · unfold configStage
          rw [hopts]
          simp only [Option.getD_some, hr, hd, alloc]
        · intro i
          have hgoal : configStr config2 i = specConfigValue opts i := by
            rw [hdvals2 i, hvals2 i]
            have hrep : configStr ctx0.config i = none :=
              configStr_replicate config_options.length i
            rw [hrep]
            cases hlv : lastVal opts i with
            | some v => simp [specConfigValue, hlv]
            | none => simp [specConfigValue, hlv]
          exact hgoal
        · exact hdlen3.trans hlenc
        · show std.threads = []
          rw [hdthreads2, hthreads2]
          rfl
        · intro x hx
          have hx2 : x ∈ insert std.nextAlloc std.live := hx
          rcases Finset.mem_insert.mp hx2 with rfl | hx3
          · rw [List.mem_toFinset, ownedIds]
            refine List.mem_append.mpr (Or.inl (List.mem_append.mpr (Or.inl
              (List.mem_append.mpr (Or.inl (List.mem_append.mpr (Or.inl
                (List.mem_append.mpr (Or.inr (by simp [Option.toList]))))))))))
          · have hm := hdlive2 hx3
            rcases Finset.mem_union.mp hm with hcg | hb
            · rw [List.mem_toFinset, ownedIds]
              exact List.mem_append.mpr (Or.inl (List.mem_append.mpr (Or.inl
                (List.mem_append.mpr (Or.inl (List.mem_append.mpr (Or.inl
                  (List.mem_append.mpr (Or.inl (List.mem_toFinset.mp hcg))))))))))
            · rw [List.mem_toFinset, ownedIds]
              exact List.mem_append.mpr (Or.inr (by simp [Finset.mem_singleton.mp hb, ctx0]))
        · show collabTrace (alloc std).2.events = []
          have he : (alloc std).2.events = (st0 env).events ++ l := by
            simp [alloc, hdevents2, hevents2]
          rw [he, collabTrace_append]
          have h1 : collabTrace (st0 env).events = [] := by
            unfold st0 tlsEv
            by_cases hp : env.tlsInitPrev = 0 <;> simp [hp, collabTrace, List.filterMap_cons]
          have h2 : collabTrace l = [] := by
            apply collabTrace_no_collab
            intro c hcl
            obtain ⟨tag, htag⟩ := hcry _ hcl
            simp at htag
          rw [h1, h2]
          rfl
        · intro j
          show Ev.spawnAttempt j ∉ (alloc std).2.events
          have he : (alloc std).2.events = (st0 env).events ++ l := by
            simp [alloc, hdevents2, hevents2]
          rw [he, List.mem_append]
          rintro (hin | hin)
          · revert hin
            unfold st0 tlsEv
            by_cases hp : env.tlsInitPrev = 0 <;> simp [hp]
          · obtain ⟨tag, htag⟩ := hcry _ hin
            simp at htag
        · show Ev.spawnMaster ∉ (alloc std).2.events
          have he : (alloc std).2.events = (st0 env).events ++ l := by
            simp [alloc, hdevents2, hevents2]
          rw [he, List.mem_append]
          rintro (hin | hin)
          · revert hin
            unfold st0 tlsEv
            by_cases hp : env.tlsInitPrev = 0 <;> simp [hp]
          · obtain ⟨tag, htag⟩ := hcry _ hin
            simp at htag
        · show Ev.allocWorkerIds ∉ (alloc std).2.events
          have he : (alloc std).2.events = (st0 env).events ++ l := by
            simp [alloc, hdevents2, hevents2]
          rw [he, List.mem_append]
          rintro (hin | hin)
          · revert hin
            unfold st0 tlsEv
            by_cases hp : env.tlsInitPrev = 0 <;> simp [hp]
          · obtain ⟨tag, htag⟩ := hcry _ hin
            simp at htag

lemma configStage_fail (env : Env) (opts : List String)
    (hopts : env.options = some opts) (hwf : optsWellFormed opts = false) :
    (configStage env ctx0 (st0 env)).1 = none ∧
    (configStage env ctx0 (st0 env)).2.live = ∅ ∧
    (configStage env ctx0 (st0 env)).2.threads = [] ∧
    (∀ j, Ev.spawnAttempt j ∉ (configStage env ctx0 (st0 env)).2.events) ∧
    Ev.spawnMaster ∉ (configStage env ctx0 (st0 env)).2.events ∧
    Ev.allocWorkerIds ∉ (configStage env ctx0 (st0 env)).2.events := by
  obtain ⟨hthreads, hlen, l, hevents, hcry⟩ := parseOpts_frame opts ctx0.config (st0 env)
  have hflag := parseOpts_fst opts ctx0.config (st0 env)
  rw [hwf] at hflag
  have hlen0 : ctx0.config.length = config_options.length := by simp [ctx0]
  have hlive := parseOpts_live opts ctx0.config (st0 env) {0} hlen0
    (by intro x hx
        simp only [st0] at hx
        exact Finset.mem_union_right _ hx)
  cases hr : parseOpts opts ctx0.config (st0 env) with
  | mk b rest =>
    cases rest with
    | mk config1 stp =>
      rw [hr] at hflag hthreads hlen hevents hlive
      subst hflag
      have hthreads2 : stp.threads = (st0 env).threads := hthreads
      have hevents2 : stp.events = (st0 env).events ++ l := hevents
      have hlive2 : stp.live ⊆ (configIdList config1).toFinset ∪ {0} := hlive
      have hred : configStage env ctx0 (st0 env) =
          (none, free_context { ctx0 with config := config1 } stp) := by
        unfold configStage
        rw [hopts]
        simp only [Option.getD_some, hr]
      rw [hred]
      refine ⟨rfl, ?_, ?_, ?_, ?_, ?_⟩
      · apply free_context_live_empty
        intro x hx
        have hm := hlive2 hx
        rcases Finset.mem_union.mp hm with hcg | hb
        · exact (cfgIds_ctxAlloc_subset_owned _) (Finset.mem_union_left _ hcg)
        · exact (cfgIds_ctxAlloc_subset_owned _)
            (Finset.mem_union_right _ (by simpa [ctx0] using hb))
      · rw [free_context_threads, hthreads2]
        rfl
      · intro j
        rw [free_context_events, hevents2, List.mem_append]
        rintro (hin | hin)
        · revert hin
          unfold st0 tlsEv
          by_cases hp : env.tlsInitPrev = 0 <;> simp [hp]
        · obtain ⟨tag, htag⟩ := hcry _ hin
          simp at htag
      · rw [free_context_events, hevents2, List.mem_append]
        rintro (hin | hin)
        · revert hin
          unfold st0 tlsEv
          by_cases hp : env.tlsInitPrev = 0 <;> simp [hp]
        · obtain ⟨tag, htag⟩ := hcry _ hin
          simp at htag
      · rw [free_context_events, hevents2, List.mem_append]
        rintro (hin | hin)
        · revert hin
          unfold st0 tlsEv
          by_cases hp : env.tlsInitPrev = 0 <;> simp [hp]
        · obtain ⟨tag, htag⟩ := hcry _ hin
          simp at htag

lemma eventCreateLoop_frame (env : Env) (n : Nat) : ∀ (i : Nat) (st : St),
    (eventCreateLoop env n i st).threads = st.threads ∧
    (eventCreateLoop env n i st).live = st.live ∧
    ∃ l, (eventCreateLoop env n i st).events = st.events ++ l ∧
      ∀ e ∈ l, ∃ tag, e = Ev.cry tag := by
  induction n with
  | zero => intro i st; exact ⟨rfl, rfl, [], by simp [eventCreateLoop], by simp⟩
  | succ n ih =>
    intro i st
    by_cases he : env.eventCreateOk i
    · obtain ⟨h1, h2, l, hl, hc⟩ := ih (i + 1) st
      exact ⟨by simpa [eventCreateLoop, he] using h1, by simpa [eventCreateLoop, he] using h2,
        l, by simpa [eventCreateLoop, he] using hl, hc⟩
    · obtain ⟨h1, h2, l, hl, hc⟩ := ih (i + 1) (mg_cry "Error creating worker event" st)
      refine ⟨by simpa [eventCreateLoop, he, mg_cry, emit] using h1,
        by simpa [eventCreateLoop, he, mg_cry, emit] using h2,
        Ev.cry "Error creating worker event" :: l, ?_, ?_⟩
      · rw [show eventCreateLoop env (n + 1) i st =
            eventCreateLoop env n (i + 1) (mg_cry "Error creating worker event" st) from by
          simp [eventCreateLoop, he]]
        rw [hl]
        simp [mg_cry, emit]
      · intro e hin
        rcases List.mem_cons.mp hin with rfl | hin2
        · exact ⟨"Error creating worker event", rfl⟩
        · exact hc e hin2

lemma spawnPhase_run (env : Env) (ctx : MgCtx) (stb : St) (k : Nat)
    (ho : spawnOutcome env 0 ctx.cfg_worker_threads = some k) :
    (spawnPhase env ctx stb).1 = some { ctx with workersStarted := k } ∧
    (spawnPhase env ctx stb).2.threads =
      stb.threads ++ spawnedThreads env 0 ctx.cfg_worker_threads ∧
    (spawnPhase env ctx stb).2.events =
      stb.events ++ spawnEvs env 0 ctx.cfg_worker_threads := by
  obtain ⟨h1, h2, h3⟩ := spawnLoop_spec env ctx.cfg_worker_threads 0 stb
  unfold spawnPhase
  cases hsl : spawnLoop env 0 ctx.cfg_worker_threads stb with
  | mk o st2 =>
    rw [hsl] at h1 h2 h3
    have h1b : o = some k := by rw [← ho]; exact h1
    subst h1b
    exact ⟨rfl, h2, h3⟩

lemma finishStart_run (env : Env) (ctx : MgCtx) (st : St) (k : Nat)
    (ho : spawnOutcome env 0 ctx.cfg_worker_threads = some k) :
    (finishStart env ctx st).1 =
      some { ctx with masterthreadStarted := env.spawnMasterOk, workersStarted := k } ∧
    (finishStart env ctx st).2.threads =
      st.threads ++ (if env.spawnMasterOk then [ThreadKind.master] else []) ++
        spawnedThreads env 0 ctx.cfg_worker_threads ∧
    (finishStart env ctx st).2.events =
      st.events ++ (if env.hasInitContextCb then [Ev.initContextCb] else []) ++
        [Ev.spawnMaster] ++ spawnEvs env 0 ctx.cfg_worker_threads := by
  cases hcb : env.hasInitContextCb <;> cases hm : env.spawnMasterOk <;>
  · simp only [finishStart, hcb, hm, if_true, if_false, Bool.false_eq_true]
    obtain ⟨h1, h2, h3⟩ := spawnPhase_run env
      { ctx with masterthreadStarted := env.spawnMasterOk } _ k ho
    rw [hm] at h1 h2 h3
    refine ⟨by rw [h1], ?_, ?_⟩
    · rw [h2]
      simp [addThread, emit]
    · rw [h3]
      simp [addThread, emit]

lemma collabsStage_success_run (env : Env) (ctx1 : MgCtx) (st1 : St) (wtc : Int)
    (hcoll : collabsOk env = true)
    (hwtc : atoi ((configStr ctx1.config NUM_THREADS).getD "") = wtc)
    (hle : ¬ wtc > MAX_WORKER_THREADS)
    (hallocIds : wtc > 0 → env.allocWorkerIdsOk = true)
    (hallocEv : wtc > 0 → env.altQueue = true → env.allocEventsOk = true) :
    ∃ ctxF stF,
      collabsStage env ctx1 st1 = finishStart env ctxF stF ∧
      ctxF.config = ctx1.config ∧
      ctxF.ctxAlloc = ctx1.ctxAlloc ∧
      ctxF.cfg_worker_threads = (if wtc > 0 then wtc.toNat else ctx1.cfg_worker_threads) ∧
      (¬ wtc > 0 → ctxF.workerthreadids = ctx1.workerthreadids) ∧
      (wtc > 0 → ctxF.workerthreadids.isSome = true) ∧
      stF.threads = st1.threads ∧
      collabTrace stF.events = collabTrace st1.events ++ specCollabOrder env ∧
      (∀ j, Ev.spawnAttempt j ∉ st1.events → Ev.spawnAttempt j ∉ stF.events) ∧
      (Ev.spawnMaster ∉ st1.events → Ev.spawnMaster ∉ stF.events) := by
  obtain ⟨hc1, hc2, hc3, hc4⟩ := applyCollabs_spec env st1
  cases hac : applyCollabs env st1 with
  | mk ok st2 =>
    rw [hac] at hc1 hc2 hc3 hc4
    have hok : ok = true := by
      have : ok = collabsOk env := hc1
      rw [this, hcoll]
    subst hok
    have hc3b : st2.threads = st1.threads := hc3
    have hc4b : st2.events = st1.events ++ (specCollabOrder env).map Ev.collab := hc4
    have hred : collabsStage env ctx1 st1 = workerAllocsStage env ctx1 wtc st2 := by
      unfold collabsStage
      rw [hac]
      show threadCountStage env ctx1 st2 = workerAllocsStage env ctx1 wtc st2
      simp only [threadCountStage, hwtc]
      rw [if_neg hle]
    have hct2 : collabTrace st2.events = collabTrace st1.events ++ specCollabOrder env := by
      rw [hc4b, collabTrace_append, collabTrace_map_collab]
    have hsa2 : ∀ j, Ev.spawnAttempt j ∉ st1.events → Ev.spawnAttempt j ∉ st2.events := by
      intro j hj
      rw [hc4b, List.mem_append]
      rintro (hin | hin)
      · exact hj hin
      · obtain ⟨c, hcc, hce⟩ := List.mem_map.mp hin
        simp at hce
    have hsm2 : Ev.spawnMaster ∉ st1.events → Ev.spawnMaster ∉ st2.events := by
      intro hj
      rw [hc4b, List.mem_append]
      rintro (hin | hin)
      · exact hj hin
      · obtain ⟨c, hcc, hce⟩ := List.mem_map.mp hin
        simp at hce
    by_cases hpos : wtc > 0
    · have hids := hallocIds hpos
      by_cases halt : env.altQueue = true
      · have hev := hallocEv hpos halt
        by_cases hsock : env.allocSocksOk = true
        · refine
            ⟨{ ctx1 with
                 cfg_worker_threads := wtc.toNat,
                 workerthreadids := some st2.nextAlloc,
                 client_wait_events := some (st2.nextAlloc + 1),
                 client_socks := some (st2.nextAlloc + 2) },
             eventCreateLoop env wtc.toNat 0
               ⟨st2.nextAlloc + 3,
                insert (st2.nextAlloc + 2) (insert (st2.nextAlloc + 1)
                  (insert st2.nextAlloc st2.live)),
                st2.threads, st2.events ++ [Ev.allocWorkerIds]⟩,
             ?_, rfl, rfl, ?_, ?_, ?_, ?_, ?_, ?_, ?_⟩
          · rw [hred]
            simp [workerAllocsStage, hpos, hids, halt, hev, hsock, alloc, emit]
          · rw [if_pos hpos]
          · intro hneg; exact absurd hpos hneg
          · intro _; rfl
          · obtain ⟨h1, h2, l, hl, hc⟩ := eventCreateLoop_frame env wtc.toNat 0 _
            rw [h1, hc3b]
          · obtain ⟨h1, h2, l, hl, hc⟩ := eventCreateLoop_frame env wtc.toNat 0 _
            rw [hl]
            show collabTrace ((st2.events ++ [Ev.allocWorkerIds]) ++ l) = _
            rw [collabTrace_append, collabTrace_append, hct2]
            have hcl : collabTrace l = [] := by
              apply collabTrace_no_collab
              intro c hcc
              obtain ⟨tag, htag⟩ := hc _ hcc
              simp at htag
            rw [hcl]
            simp [collabTrace, List.filterMap_cons]
          · intro j hj
            obtain ⟨h1, h2, l, hl, hc⟩ := eventCreateLoop_frame env wtc.toNat 0 _
            rw [hl]
            show Ev.spawnAttempt j ∉ (st2.events ++ [Ev.allocWorkerIds]) ++ l
            simp only [List.mem_append]
            rintro ((hin | hin) | hin)
            · exact hsa2 j hj hin
            · simp at hin
            · obtain ⟨tag, htag⟩ := hc _ hin
              simp at htag
          · intro hj
            obtain ⟨h1, h2, l, hl, hc⟩ := eventCreateLoop_frame env wtc.toNat 0 _
            rw [hl]
            show Ev.spawnMaster ∉ (st2.events ++ [Ev.allocWorkerIds]) ++ l
            simp only [List.mem_append]
            rintro ((hin | hin) | hin)
            · exact hsm2 hj hin
            · simp at hin
            · obtain ⟨tag, htag⟩ := hc _ hin
              simp at htag
        · refine
            ⟨{ ctx1 with
                 cfg_worker_threads := wtc.toNat,
                 workerthreadids := some st2.nextAlloc,
                 client_wait_events := some (st2.nextAlloc + 1),
                 client_socks := none },
             eventCreateLoop env wtc.toNat 0
               ⟨st2.nextAlloc + 2,
                insert (st2.nextAlloc + 1) (insert st2.nextAlloc st2.live),
                st2.threads, st2.events ++ [Ev.allocWorkerIds]⟩,
             ?_, rfl, rfl, ?_, ?_, ?_, ?_, ?_, ?_, ?_⟩
          · rw [hred]
            simp [workerAllocsStage, hpos, hids, halt, hev, hsock, alloc, emit]
          · rw [if_pos hpos]
          · intro hneg; exact absurd hpos hneg
          · intro _; rfl
          · obtain ⟨h1, h2, l, hl, hc⟩ := eventCreateLoop_frame env wtc.toNat 0 _
            rw [h1, hc3b]
          · obtain ⟨h1, h2, l, hl, hc⟩ := eventCreateLoop_frame env wtc.toNat 0 _
            rw [hl]
            show collabTrace ((st2.events ++ [Ev.allocWorkerIds]) ++ l) = _
            rw [collabTrace_append, collabTrace_append, hct2]
            have hcl : collabTrace l = [] := by
              apply collabTrace_no_collab
              intro c hcc
              obtain ⟨tag, htag⟩ := hc _ hcc
              simp at htag
            rw [hcl]
            simp [collabTrace, List.filterMap_cons]
          · intro j hj
            obtain ⟨h1, h2, l, hl, hc⟩ := eventCreateLoop_frame env wtc.toNat 0 _
            rw [hl]
            show Ev.spawnAttempt j ∉ (st2.events ++ [Ev.allocWorkerIds]) ++ l
            simp only [List.mem_append]
            rintro ((hin | hin) | hin)
            · exact hsa2 j hj hin
            · simp at hin
            · obtain ⟨tag, htag⟩ := hc _ hin
              simp at htag
          · intro hj
            obtain ⟨h1, h2, l, hl, hc⟩ := eventCreateLoop_frame env wtc.toNat 0 _
            rw [hl]
            show Ev.spawnMaster ∉ (st2.events ++ [Ev.allocWorkerIds]) ++ l
            simp only [List.mem_append]
            rintro ((hin | hin) | hin)
            · exact hsm2 hj hin
            · simp at hin
            · obtain ⟨tag, htag⟩ := hc _ hin
              simp at htag
      · refine
          ⟨{ ctx1 with
               cfg_worker_threads := wtc.toNat,
               workerthreadids := some st2.nextAlloc },
           ⟨st2.nextAlloc + 1, insert st2.nextAlloc st2.live, st2.threads,
            st2.events ++ [Ev.allocWorkerIds]⟩,
           ?_, rfl, rfl, ?_, ?_, ?_, ?_, ?_, ?_, ?_⟩
        · rw [hred]
          simp [workerAllocsStage, hpos, hids, halt, alloc, emit]
        · rw [if_pos hpos]
        · intro hneg; exact absurd hpos hneg
        · intro _; rfl
        · exact hc3b
        · show collabTrace (st2.events ++ [Ev.allocWorkerIds]) = _
          rw [collabTrace_append, hct2]
          simp [collabTrace, List.filterMap_cons]
        · intro j hj
          show Ev.spawnAttempt j ∉ st2.events ++ [Ev.allocWorkerIds]
          simp only [List.mem_append]
          rintro (hin | hin)
          · exact hsa2 j hj hin
          · simp at hin
        · intro hj
          show Ev.spawnMaster ∉ st2.events ++ [Ev.allocWorkerIds]
          simp only [List.mem_append]
          rintro (hin | hin)
          · exact hsm2 hj hin
          · simp at hin
    · refine ⟨ctx1, st2, ?_, rfl, rfl, ?_, ?_, ?_, hc3b, hct2, hsa2, hsm2⟩
      · rw [hred]
        unfold workerAllocsStage
        rw [if_neg hpos]
      · rw [if_neg hpos]
      · intro _; rfl
      · intro hgt; exact absurd hgt hpos

lemma collabsStage_fail_run (env : Env) (ctx1 : MgCtx) (st1 : St)
    (hcoll : collabsOk env = false)
    (hlive : st1.live ⊆ (ownedIds ctx1).toFinset) :
    (collabsStage env ctx1 st1).1 = none ∧
    (collabsStage env ctx1 st1).2.live = ∅ := by
  obtain ⟨hc1, hc2, hc3, hc4⟩ := applyCollabs_spec env st1
  cases hac : applyCollabs env st1 with
  | mk ok st2 =>
    rw [hac] at hc1 hc2 hc3 hc4
    have hok : ok = false := by
      have h : ok = collabsOk env := hc1
      rw [h, hcoll]
    subst hok
    have hred : collabsStage env ctx1 st1 = (none, free_context ctx1 st2) := by
      unfold collabsStage
      rw [hac]
      rfl
    rw [hred]
    refine ⟨rfl, ?_⟩
    apply free_context_live_empty
    have h2 : st2.live = st1.live := hc2
    rw [h2]
    exact hlive

lemma collabsStage_toomany_run (env : Env) (ctx1 : MgCtx) (st1 : St) (wtc : Int)
    (hcoll : collabsOk env = true)
    (hwtc : atoi ((configStr ctx1.config NUM_THREADS).getD "") = wtc)
    (hgt : wtc > MAX_WORKER_THREADS)
    (hlive : st1.live ⊆ (ownedIds ctx1).toFinset)
    (hnoalloc : Ev.allocWorkerIds ∉ st1.events) :
    (collabsStage env ctx1 st1).1 = none ∧
    (collabsStage env ctx1 st1).2.live = ∅ ∧
    Ev.cry "Too many worker threads" ∈ (collabsStage env ctx1 st1).2.events ∧
    Ev.allocWorkerIds ∉ (collabsStage env ctx1 st1).2.events := by
  obtain ⟨hc1, hc2, hc3, hc4⟩ := applyCollabs_spec env st1
  cases hac : applyCollabs env st1 with
  | mk ok st2 =>
    rw [hac] at hc1 hc2 hc3 hc4
    have hok : ok = true := by
      have h : ok = collabsOk env := hc1
      rw [h, hcoll]
    subst hok
    have hc2b : st2.live = st1.live := hc2
    have hc4b : st2.events = st1.events ++ (specCollabOrder env).map Ev.collab := hc4
    have hred : collabsStage env ctx1 st1 =
        (none, free_context ctx1 (mg_cry "Too many worker threads" st2)) := by
      unfold collabsStage
      rw [hac]
      show threadCountStage env ctx1 st2 = _
      simp only [threadCountStage, hwtc]
      rw [if_pos hgt]
    rw [hred]
    refine ⟨rfl, ?_, ?_, ?_⟩
    · apply free_context_live_empty
      show (mg_cry "Too many worker threads" st2).live ⊆ _
      have : (mg_cry "Too many worker threads" st2).live = st1.live := by
        simp [mg_cry, emit, hc2b]
      rw [this]
      exact hlive
    · rw [free_context_events]
      simp [mg_cry, emit]
    · rw [free_context_events]
      show Ev.allocWorkerIds ∉ (mg_cry "Too many worker threads" st2).events
      simp only [mg_cry, emit, hc4b, List.mem_append]
      rintro ((hin | hin) | hin)
      · exact hnoalloc hin
      · obtain ⟨c, hcc, hce⟩ := List.mem_map.mp hin
        simp at hce
      · simp at hin

lemma spawnEvs_no_collab (env : Env) (rem : Nat) : ∀ i,
    collabTrace (spawnEvs env i rem) = [] := by
  induction rem with
  | zero => intro i; rfl
  | succ rem ih =>
    intro i
    by_cases hw : env.wtaAllocOk i
    · by_cases hs : env.spawnWorkerOk i
      · simp only [spawnEvs, hw, hs, if_true]
        show collabTrace ([Ev.spawnAttempt i] ++ spawnEvs env (i + 1) rem) = []
        rw [collabTrace_append, ih (i + 1)]
        rfl
      · by_cases hi : i > 0
        · rw [show spawnEvs env i (rem + 1) =
              [Ev.spawnAttempt i, Ev.cry "Cannot start worker thread"] from by
            simp [spawnEvs, hw, hs, hi]]
          rfl
        · rw [show spawnEvs env i (rem + 1) =
              [Ev.spawnAttempt i, Ev.cry "Cannot create threads"] from by
            simp [spawnEvs, hw, hs, hi]]
          rfl
    · by_cases hi : i > 0
      · rw [show spawnEvs env i (rem + 1) = [Ev.cry "Cannot start worker thread"] from by
          simp [spawnEvs, hw, hi]]
        rfl
      · rw [show spawnEvs env i (rem + 1) = [Ev.cry "Cannot create threads"] from by
          simp [spawnEvs, hw, hi]]
        rfl

lemma spawnEvs_no_master (env : Env) (rem : Nat) : ∀ i,
    Ev.spawnMaster ∉ spawnEvs env i rem := by
  induction rem with
  | zero => intro i; simp [spawnEvs]
  | succ rem ih =>
    intro i
    by_cases hw : env.wtaAllocOk i
    · by_cases hs : env.spawnWorkerOk i
      · simp only [spawnEvs, hw, hs, if_true]
        intro hmem
        rcases List.mem_cons.mp hmem with h | h
        · simp at h
        · exact ih (i + 1) h
      · by_cases hi : i > 0
        · rw [show spawnEvs env i (rem + 1) =
              [Ev.spawnAttempt i, Ev.cry "Cannot start worker thread"] from by
            simp [spawnEvs, hw, hs, hi]]
          simp
        · rw [show spawnEvs env i (rem + 1) =
              [Ev.spawnAttempt i, Ev.cry "Cannot create threads"] from by
            simp [spawnEvs, hw, hs, hi]]
          simp
    · by_cases hi : i > 0
      · rw [show spawnEvs env i (rem + 1) = [Ev.cry "Cannot start worker thread"] from by
          simp [spawnEvs, hw, hi]]
        simp
      · rw [show spawnEvs env i (rem + 1) = [Ev.cry "Cannot create threads"] from by
          simp [spawnEvs, hw, hi]]
        simp

lemma spawnPhase_collabTrace (env : Env) (ctx : MgCtx) (st : St) :
    collabTrace (spawnPhase env ctx st).2.events = collabTrace st.events := by
  obtain ⟨h1, h2, h3⟩ := spawnLoop_spec env ctx.cfg_worker_threads 0 st
  unfold spawnPhase
  cases hsl : spawnLoop env 0 ctx.cfg_worker_threads st with
  | mk o st2 =>
    rw [hsl] at h3
    have h3b : st2.events = st.events ++ spawnEvs env 0 ctx.cfg_worker_threads := h3
    cases o with
    | none =>
      show collabTrace (free_context ctx st2).events = _
      rw [free_context_events, h3b, collabTrace_append, spawnEvs_no_collab]
      simp
    | some k =>
      show collabTrace st2.events = _
      rw [h3b, collabTrace_append, spawnEvs_no_collab]
      simp

lemma finishStart_collabTrace (env : Env) (ctx : MgCtx) (st : St) :
    collabTrace (finishStart env ctx st).2.events = collabTrace st.events := by
  cases hcb : env.hasInitContextCb <;> cases hm : env.spawnMasterOk <;>
  · simp only [finishStart, hcb, hm, if_true, if_false, Bool.false_eq_true]
    rw [spawnPhase_collabTrace]
    simp [addThread, emit, collabTrace_append, collabTrace, List.filterMap_cons]

lemma workerAllocsStage_collabTrace (env : Env) (ctx : MgCtx) (wtc : Int) (st : St) :
    collabTrace (workerAllocsStage env ctx wtc st).2.events = collabTrace st.events := by
  unfold workerAllocsStage
  by_cases hpos : wtc > 0
  · rw [if_pos hpos]
    by_cases hids : env.allocWorkerIdsOk
    · simp only [hids, if_true]
      by_cases halt : env.altQueue
      · simp only [halt, if_true]
        by_cases hev : env.allocEventsOk
        · simp only [hev, if_true]
          by_cases hsock : env.allocSocksOk
          all_goals
            simp only [hsock, if_true, if_false, Bool.false_eq_true, alloc, emit]
            rw [if_neg (Option.some_ne_none _)]
            obtain ⟨he1, he2, l, hl, hc⟩ := eventCreateLoop_frame env wtc.toNat 0 _
            rw [finishStart_collabTrace, hl, collabTrace_append, collabTrace_append]
            have hcl : collabTrace l = [] := by
              apply collabTrace_no_collab
              intro c hcc
              obtain ⟨tag, htag⟩ := hc _ hcc
              simp at htag
            rw [hcl]
            simp [collabTrace, List.filterMap_cons]
        · simp only [hev, if_false, Bool.false_eq_true, alloc, emit]
          rw [free_context_events]
          simp [mg_free, mg_cry, emit, collabTrace_append, collabTrace, List.filterMap_cons]
      · simp only [halt, if_false, Bool.false_eq_true, alloc, emit]
        rw [finishStart_collabTrace]
        simp [collabTrace_append, collabTrace, List.filterMap_cons]
    · simp only [hids, if_false, Bool.false_eq_true]
      rw [free_context_events]
      simp [mg_cry, emit, collabTrace_append, collabTrace, List.filterMap_cons]
  · rw [if_neg hpos]
    exact finishStart_collabTrace env ctx st

lemma threadCountStage_collabTrace (env : Env) (ctx : MgCtx) (st : St) :
    collabTrace (threadCountStage env ctx st).2.events = collabTrace st.events := by
  by_cases hgt : atoi ((configStr ctx.config NUM_THREADS).getD "") > MAX_WORKER_THREADS
  · rw [show threadCountStage env ctx st =
        (none, free_context ctx (mg_cry "Too many worker threads" st)) from by
      simp only [threadCountStage]
      rw [if_pos hgt]]
    rw [free_context_events]
    simp [mg_cry, emit, collabTrace_append, collabTrace, List.filterMap_cons]
  · rw [show threadCountStage env ctx st =
        workerAllocsStage env ctx (atoi ((configStr ctx.config NUM_THREADS).getD "")) st from by
      simp only [threadCountStage]
      rw [if_neg hgt]]
    exact workerAllocsStage_collabTrace env ctx _ st

lemma collabsStage_collabTrace (env : Env) (ctx : MgCtx) (st : St) :
    collabTrace (collabsStage env ctx st).2.events =
      collabTrace st.events ++ specCollabOrder env := by
  obtain ⟨hc1, hc2, hc3, hc4⟩ := applyCollabs_spec env st
  cases hac : applyCollabs env st with
  | mk ok st2 =>
    rw [hac] at hc1 hc2 hc3 hc4
    have hc4b : st2.events = st.events ++ (specCollabOrder env).map Ev.collab := hc4
    have hct : collabTrace st2.events = collabTrace st.events ++ specCollabOrder env := by
      rw [hc4b, collabTrace_append, collabTrace_map_collab]
    unfold collabsStage
    rw [hac]
    cases ok with
    | true =>
      show collabTrace (threadCountStage env ctx st2).2.events = _
      rw [threadCountStage_collabTrace, hct]
    | false =>
      show collabTrace (free_context ctx st2).events = _
      rw [free_context_events, hct]

/- ------------------------------------------------------------------ -/
/- Success inversion lemmas.                                          -/
/- ------------------------------------------------------------------ -/

lemma spawnPhase_some (env : Env) (ctx : MgCtx) (st : St) (ctx2 : MgCtx) (st2 : St)
    (h : spawnPhase env ctx st = (some ctx2, st2)) :
    ctx2.cfg_worker_threads = ctx.cfg_worker_threads ∧ ctx2.config = ctx.config := by
  unfold spawnPhase at h
  cases hsl : spawnLoop env 0 ctx.cfg_worker_threads st with
  | mk o st3 =>
    rw [hsl] at h
    cases o with
    | none => simp at h
    | some k =>
      simp only [Prod.mk.injEq, Option.some.injEq] at h
      obtain ⟨h1, h2⟩ := h
      subst h1
      exact ⟨rfl, rfl⟩

lemma finishStart_some (env : Env) (ctx : MgCtx) (st : St) (ctx2 : MgCtx) (st2 : St)
    (h : finishStart env ctx st = (some ctx2, st2)) :
    ctx2.cfg_worker_threads = ctx.cfg_worker_threads ∧ ctx2.config = ctx.config := by
  unfold finishStart at h
  exact spawnPhase_some env { ctx with masterthreadStarted := env.spawnMasterOk } _ ctx2 st2 h

lemma workerAllocsStage_some (env : Env) (ctx : MgCtx) (wtc : Int) (st : St)
    (ctx2 : MgCtx) (st2 : St)
    (h : workerAllocsStage env ctx wtc st = (some ctx2, st2)) :
    ctx2.cfg_worker_threads = (if wtc > 0 then wtc.toNat else ctx.cfg_worker_threads) := by
  unfold workerAllocsStage at h
  by_cases hpos : wtc > 0
  · rw [if_pos hpos] at h
    rw [if_pos hpos]
    by_cases hids : env.allocWorkerIdsOk
    · simp only [hids, if_true, alloc, emit] at h
      by_cases halt : env.altQueue
      · simp only [halt, if_true] at h
        by_cases hev : env.allocEventsOk
        · simp only [hev, if_true] at h
          by_cases hsock : env.allocSocksOk
          · simp only [hsock, if_true] at h
            rw [if_neg (Option.some_ne_none _)] at h
            exact (finishStart_some env _ _ ctx2 st2 h).1
          · simp only [hsock, if_false, Bool.false_eq_true] at h
            rw [if_neg (Option.some_ne_none _)] at h
            exact (finishStart_some env _ _ ctx2 st2 h).1
        · simp only [hev, if_false, Bool.false_eq_true] at h
          simp at h
      · simp only [halt, if_false, Bool.false_eq_true] at h
        exact (finishStart_some env _ _ ctx2 st2 h).1
    · simp only [hids, if_false, Bool.false_eq_true] at h
      simp at h
  · rw [if_neg hpos] at h
    rw [if_neg hpos]
    exact (finishStart_some env ctx st ctx2 st2 h).1

lemma threadCountStage_some (env : Env) (ctx : MgCtx) (st : St) (ctx2 : MgCtx) (st2 : St)
    (h : threadCountStage env ctx st = (some ctx2, st2))
    (hbase : ctx.cfg_worker_threads ≤ MAX_WORKER_THREADS.toNat) :
    ctx2.cfg_worker_threads ≤ MAX_WORKER_THREADS.toNat := by
  by_cases hgt : atoi ((configStr ctx.config NUM_THREADS).getD "") > MAX_WORKER_THREADS
  · have hred : threadCountStage env ctx st =
        (none, free_context ctx (mg_cry "Too many worker threads" st)) := by
      simp only [threadCountStage]
      rw [if_pos hgt]
    rw [hred] at h
    simp at h
  · have hred : threadCountStage env ctx st =
        workerAllocsStage env ctx (atoi ((configStr ctx.config NUM_THREADS).getD "")) st := by
      simp only [threadCountStage]
      rw [if_neg hgt]
    rw [hred] at h
    have hcfg := workerAllocsStage_some env ctx _ st ctx2 st2 h
    rw [hcfg]
    split
    · have hle : atoi ((configStr ctx.config NUM_THREADS).getD "") ≤ MAX_WORKER_THREADS := by
        omega
      exact Int.toNat_le_toNat hle
    · exact hbase

lemma collabsStage_some (env : Env) (ctx : MgCtx) (st : St) (ctx2 : MgCtx) (st2 : St)
    (h : collabsStage env ctx st = (some ctx2, st2))
    (hbase : ctx.cfg_worker_threads ≤ MAX_WORKER_THREADS.toNat) :
    ctx2.cfg_worker_threads ≤ MAX_WORKER_THREADS.toNat := by
  unfold collabsStage at h
  cases hac : applyCollabs env st with
  | mk ok st3 =>
    rw [hac] at h
    cases ok with
    | false => simp at h
    | true =>
      have h2 : threadCountStage env ctx st3 = (some ctx2, st2) := h
      exact threadCountStage_some env ctx st3 ctx2 st2 h2 hbase

lemma configStage_some (env : Env) (ctx : MgCtx) (st : St) (ctx2 : MgCtx) (st2 : St)
    (h : configStage env ctx st = (some ctx2, st2))
    (hbase : ctx.cfg_worker_threads ≤ MAX_WORKER_THREADS.toNat) :
    ctx2.cfg_worker_threads ≤ MAX_WORKER_THREADS.toNat := by
  unfold configStage at h
  cases hr : parseOpts (env.options.getD []) ctx.config st with
  | mk b rest =>
    cases rest with
    | mk config1 stp =>
      rw [hr] at h
      cases b with
      | false => simp at h
      | true =>
        have h2 : collabsStage env
            { ctx with
                config := (applyDefaults config_options 0 config1 stp).1,
                systemName := some (applyDefaults config_options 0 config1 stp).2.nextAlloc }
            (alloc (applyDefaults config_options 0 config1 stp).2).2 = (some ctx2, st2) := h
        exact collabsStage_some env _ _ ctx2 st2 h2 hbase

lemma syncStage_some (env : Env) (ctx : MgCtx) (st : St) (ctx2 : MgCtx) (st2 : St)
    (h : syncStage env ctx st = (some ctx2, st2))
    (hbase : ctx.cfg_worker_threads ≤ MAX_WORKER_THREADS.toNat) :
    ctx2.cfg_worker_threads ≤ MAX_WORKER_THREADS.toNat := by
  unfold syncStage at h
  by_cases hs : syncInitOk env = true
  · rw [if_pos hs] at h
    exact configStage_some env ctx st ctx2 st2 h hbase
  · rw [if_neg hs] at h
    simp at h

lemma tlsStage_some (env : Env) (ctx : MgCtx) (st : St) (ctx2 : MgCtx) (st2 : St)
    (h : tlsStage env ctx st = (some ctx2, st2))
    (hbase : ctx.cfg_worker_threads ≤ MAX_WORKER_THREADS.toNat) :
    ctx2.cfg_worker_threads ≤ MAX_WORKER_THREADS.toNat := by
  unfold tlsStage at h
  by_cases hb : (tlsInitEnter env.tlsInitPrev).2 = true
  · rw [if_pos hb] at h
    by_cases hk : env.tlsKeyCreateOk = true
    · rw [if_pos hk] at h
      exact syncStage_some env ctx _ ctx2 st2 h hbase
    · rw [if_neg hk] at h
      simp at h
  · rw [if_neg hb] at h
    exact syncStage_some env ctx _ ctx2 st2 h hbase

lemma mg_start_cfg_bound (env : Env) (ctx2 : MgCtx) (st2 : St)
    (h : mg_start env = (some ctx2, st2)) :
    ctx2.cfg_worker_threads ≤ MAX_WORKER_THREADS.toNat := by
  unfold mg_start at h
  by_cases hc : env.callocCtxOk = true
  · rw [if_pos hc] at h
    exact tlsStage_some env _ _ ctx2 st2 h (by simp [MAX_WORKER_THREADS])
  · rw [if_neg hc] at h
    simp at h

/- ------------------------------------------------------------------ -/
/- Spawn outcome helper lemmas.                                       -/
/- ------------------------------------------------------------------ -/

lemma spawnOutcome_isSome_pos (env : Env) (rem : Nat) : ∀ i, 1 ≤ i →
    (spawnOutcome env i rem).isSome = true := by
  induction rem with
  | zero => intro i _; rfl
  | succ rem ih =>
    intro i hi
    by_cases hw : (env.wtaAllocOk i && env.spawnWorkerOk i) = true
    · rw [show spawnOutcome env i (rem + 1) =
          (spawnOutcome env (i + 1) rem).map (fun k => k + 1) from by
        simp [spawnOutcome, hw]]
      cases ho : spawnOutcome env (i + 1) rem with
      | none =>
        have := ih (i + 1) (by omega)
        rw [ho] at this
        simp at this
      | some k => rfl
    · rw [show spawnOutcome env i (rem + 1) = some 0 from by
        simp [spawnOutcome, hw, show i > 0 from hi]]
      rfl

lemma spawnOutcome_first_ok (env : Env) (N : Nat)
    (hfirst : N > 0 → env.wtaAllocOk 0 = true ∧ env.spawnWorkerOk 0 = true) :
    ∃ k, spawnOutcome env 0 N = some k := by
  cases N with
  | zero => exact ⟨0, rfl⟩
  | succ m =>
    obtain ⟨hw, hs⟩ := hfirst (by omega)
    have hsome := spawnOutcome_isSome_pos env m 1 (le_refl 1)
    rw [show spawnOutcome env 0 (m + 1) = (spawnOutcome env 1 m).map (fun k => k + 1) from by
      simp [spawnOutcome, hw, hs]]
    cases ho : spawnOutcome env 1 m with
    | none =>
      rw [ho] at hsome
      simp at hsome
    | some k => exact ⟨k + 1, rfl⟩

lemma spawn_pattern_one (env : Env) (N : Nat) (hN : 2 ≤ N)
    (hwta : ∀ i, env.wtaAllocOk i = true)
    (hs0 : env.spawnWorkerOk 0 = true)
    (hsl : ∀ i, 1 ≤ i → env.spawnWorkerOk i = false) :
    spawnOutcome env 0 N = some 1 ∧
    spawnedThreads env 0 N = [ThreadKind.worker 0] ∧
    spawnEvs env 0 N = [Ev.spawnAttempt 0, Ev.spawnAttempt 1,
      Ev.cry "Cannot start worker thread"] := by
  obtain ⟨m, rfl⟩ : ∃ m, N = m + 2 := ⟨N - 2, by omega⟩
  have hs1 := hsl 1 (le_refl 1)
  refine ⟨?_, ?_, ?_⟩ <;>
    simp [spawnOutcome, spawnedThreads, spawnEvs, hwta 0, hwta 1, hs0, hs1]

/- ------------------------------------------------------------------ -/
/- Duplicate option lemmas.                                           -/
/- ------------------------------------------------------------------ -/

lemma lastVal_isSome_of_countIdx (opts : List String) (i : Nat) :
    1 ≤ countIdx opts i → (lastVal opts i).isSome = true := by
  induction opts, i using countIdx.induct with
  | case1 i => intro h; simp [countIdx] at h
  | case2 a i => intro h; simp [countIdx] at h
  | case3 n v rest i ih =>
    intro h
    by_cases hc : 1 ≤ countIdx rest i
    · have hs := ih hc
      cases hl : lastVal rest i with
      | none => rw [hl] at hs; simp at hs
      | some w => simp [lastVal, hl]
    · have hidx : get_option_index n = some i := by
        simp only [countIdx] at h
        by_cases hx : get_option_index n = some i
        · exact hx
        · rw [if_neg hx] at h
          omega
      cases hl : lastVal rest i with
      | some w => simp [lastVal, hl]
      | none => simp [lastVal, hl, hidx]

lemma parseOpts_dup_cry (opts : List String) (config : List (Option (Nat × String)))
    (st : St) (i : Nat) :
    optsWellFormed opts = true →
    config.length = config_options.length →
    (2 ≤ countIdx opts i ∨ (1 ≤ countIdx opts i ∧ (config.getD i none).isSome = true)) →
    Ev.cry "duplicate option" ∈ (parseOpts opts config st).2.2.events := by
  induction opts, config, st using parseOpts.induct with
  | case1 config st => intro _ _ h; simp [countIdx] at h
  | case2 name config st hn => intro hwf _ _; simp [optsWellFormed] at hwf
  | case3 name config st val hn => intro hwf _ _; simp [optsWellFormed] at hwf
  | case4 name value rest config st hn => intro hwf _ _; simp [optsWellFormed, hn] at hwf
  | case5 name value rest config st val hn ih =>
    intro hwf hlen h
    have hvlt : val < config.length := hlen ▸ get_option_index_lt name val hn
    have hwf2 : optsWellFormed rest = true := by
      simp only [optsWellFormed, hn, Option.isSome_some, Bool.true_and] at hwf
      exact hwf
    simp only [parseOpts, hn]
    cases hdup : config.getD val none with
    | some old =>
      obtain ⟨_, _, l, hl, _⟩ := parseOpts_frame rest
        (config.set val (some ((dupFree config val st).nextAlloc, value)))
        (alloc (dupFree config val st)).2
      rw [hl]
      simp only [dupFree, hdup, alloc, mg_free, mg_cry, emit]
      simp [List.mem_append]
    | none =>
      simp only [dupFree, hdup, alloc] at ih ⊢
      refine ih hwf2 (by simpa [List.length_set] using hlen) ?_
      rcases h with h2 | ⟨h1, hsome⟩
      · by_cases hvi : val = i
        · subst hvi
          refine Or.inr ⟨?_, ?_⟩
          · simp [countIdx, hn] at h2
            omega
          · rw [getD_set_self _ _ _ _ hvlt]
            rfl
        · refine Or.inl ?_
          simp only [countIdx, hn] at h2
          rw [if_neg (by simpa using hvi)] at h2
          omega
      · by_cases hvi : val = i
        · subst hvi
          rw [hdup] at hsome
          simp at hsome
        · refine Or.inr ⟨?_, ?_⟩
          · simp only [countIdx, hn] at h1
            rw [if_neg (by simpa using hvi)] at h1
            omega
          · rw [getD_set_ne _ _ _ _ _ hvi]
            exact hsome

/- ------------------------------------------------------------------ -/
/- Claim theorems.                                                    -/
/- ------------------------------------------------------------------ -/

/-- C9: across n concurrent first calls to mg_start the atomic increments of
the process wide TLS init counter serialize the callers into a sequence of
tlsInitEnter steps from counter 0; exactly one caller, the one whose
increment returns 1, takes the key creating branch, and the remaining n - 1
callers take the brief sleeping branch instead of re initializing, so the
key is never created twice. -/
theorem C9_tls_registry_initialized_once (n : Nat) (hn : 1 ≤ n) :
    (tlsInitRace n 0).2.1 = 1 ∧ (tlsInitRace n 0).2.2 = n - 1 := by
  obtain ⟨m, rfl⟩ : ∃ m, n = m + 1 := ⟨n - 1, by omega⟩
  obtain ⟨h1, h2⟩ := tlsInitRace_ge_one m 1 (le_refl 1)
  simp only [tlsInitRace, tlsInitEnter]
  simp [h1, h2]

theorem C9_witness : (tlsInitRace 3 0).2.1 = 1 ∧ (tlsInitRace 3 0).2.2 = 2 :=
  C9_tls_registry_initialized_once 3 (by decide)

/-- C1: code bug evidence.  With every oracle cooperative except worker
thread spawn, which always fails, mg_start returns NULL and the context is
fully torn down (no live allocation remains), yet the master thread spawned
on the line just before the worker loop is still running when mg_start
returns: nothing on the fatal first worker path stops or joins it, so the
claim that no threads of the startup attempt remain running is violated,
and the surviving master thread holds a pointer to the freed context. -/
theorem C1_first_worker_failure_master_survives :
    (mg_start envC1).1 = none ∧
    (mg_start envC1).2.live = ∅ ∧
    (mg_start envC1).2.threads = [ThreadKind.master] := by decide

/-- C2: code bug evidence.  Under the alternative queue variant, when the
socket slot array allocation fails and every other step succeeds, mg_start
does not detect the failure (the source re-tests client_wait_events where
client_socks was meant): it returns a successful context whose socket slot
array is NULL while the event array is allocated, and the diagnostic of the
socket slot failure branch is never emitted, so no rollback happens. -/
theorem C2_socks_alloc_failure_undetected :
    ((mg_start envC2).1.map (fun c => c.client_socks)) = some none ∧
    ((mg_start envC2).1.map (fun c => c.client_wait_events.isSome)) = some true ∧
    Ev.cry "Not enough memory for worker socket array" ∉ (mg_start envC2).2.events := by
  decide

/-- C5: an option list with a name that resolves to no known option index, or
with a trailing name missing its value, is rejected by optsWellFormed, and
for such a list mg_start returns failure with everything freed, no thread
created, the worker handle list never allocated and no spawn ever
attempted. -/
theorem C5_invalid_option_no_workers (env : Env) (opts : List String)
    (hc : env.callocCtxOk = true)
    (htls : env.tlsInitPrev = 0 → env.tlsKeyCreateOk = true)
    (hsync : syncInitOk env = true)
    (hopts : env.options = some opts)
    (hwf : optsWellFormed opts = false) :
    (mg_start env).1 = none ∧
    (mg_start env).2.live = ∅ ∧
    (mg_start env).2.threads = [] ∧
    (∀ j, Ev.spawnAttempt j ∉ (mg_start env).2.events) ∧
    Ev.spawnMaster ∉ (mg_start env).2.events ∧
    Ev.allocWorkerIds ∉ (mg_start env).2.events := by
  rw [mg_start_pipe env hc htls hsync]
  exact configStage_fail env opts hopts hwf

theorem C5_witness :
    (mg_start envC5w).1 = none ∧
    (mg_start envC5w).2.live = ∅ ∧
    (mg_start envC5w).2.threads = [] ∧
    (∀ j, Ev.spawnAttempt j ∉ (mg_start envC5w).2.events) ∧
    Ev.spawnMaster ∉ (mg_start envC5w).2.events ∧
    Ev.allocWorkerIds ∉ (mg_start envC5w).2.events :=
  C5_invalid_option_no_workers envC5w ["bogus", "x"] (by decide) (fun _ => by decide)
    (by decide) (by decide) (by decide)

/-- C3: on every startup that reaches the collaborator phase, mg_start
invokes the five external configuration collaborators in the order
credential file, TLS, listening ports, privilege drop, ACL, stopping right
after the first one that returns false (specCollabOrder); and when one of
them fails, mg_start frees the context completely and returns failure. -/
theorem C3_collaborators_in_order_first_false_fatal (env : Env) (opts : List String)
    (hc : env.callocCtxOk = true)
    (htls : env.tlsInitPrev = 0 → env.tlsKeyCreateOk = true)
    (hsync : syncInitOk env = true)
    (hopts : env.options = some opts)
    (hwf : optsWellFormed opts = true) :
    collabTrace (mg_start env).2.events = specCollabOrder env ∧
    (collabsOk env = false → (mg_start env).1 = none ∧ (mg_start env).2.live = ∅) := by
  rw [mg_start_pipe env hc htls hsync]
  obtain ⟨ctx1, st1, hconf, hA, hvals, hlen, hcfg0, hids0, hwe0, hsock0, hthr, hliveS,
    hctnil, hatt, hmas, halloc⟩ := configStage_success env opts hopts hwf
  rw [hconf]
  constructor
  · rw [collabsStage_collabTrace, hctnil]
    simp
  · intro hcoll
    exact collabsStage_fail_run env ctx1 st1 hcoll hliveS

theorem C3_witness :
    collabTrace (mg_start envC3w).2.events = specCollabOrder envC3w ∧
    ((mg_start envC3w).1 = none ∧ (mg_start envC3w).2.live = ∅) := by
  obtain ⟨h1, h2⟩ := C3_collaborators_in_order_first_false_fatal envC3w []
    (by decide) (fun _ => by decide) (by decide) (by decide) (by decide)
  exact ⟨h1, h2 (by decide)⟩

/-- C7: a configured worker thread count above the hard maximum makes
mg_start report the error diagnostic and return failure with full rollback,
never allocating the worker handle list (no silent clamping); and on every
successful start whatsoever the stored worker count never exceeds the hard
maximum. -/
theorem C7_worker_count_maximum_enforced :
    (∀ (env : Env) (opts : List String),
      env.callocCtxOk = true →
      (env.tlsInitPrev = 0 → env.tlsKeyCreateOk = true) →
      syncInitOk env = true →
      env.options = some opts →
      optsWellFormed opts = true →
      collabsOk env = true →
      cfgWorkerCount opts > MAX_WORKER_THREADS →
      (mg_start env).1 = none ∧ (mg_start env).2.live = ∅ ∧
        Ev.cry "Too many worker threads" ∈ (mg_start env).2.events ∧
        Ev.allocWorkerIds ∉ (mg_start env).2.events) ∧
    (∀ env : Env,
      ((mg_start env).1.map (fun c => c.cfg_worker_threads)).getD 0 ≤
        MAX_WORKER_THREADS.toNat) := by
  constructor
  · intro env opts hc htls hsync hopts hwf hcoll hgt
    rw [mg_start_pipe env hc htls hsync]
    obtain ⟨ctx1, st1, hconf, hA, hvals, hlen, hcfg0, hids0, hwe0, hsock0, hthr, hliveS,
      hctnil, hatt, hmas, halloc⟩ := configStage_success env opts hopts hwf
    rw [hconf]
    have hwtc : atoi ((configStr ctx1.config NUM_THREADS).getD "") = cfgWorkerCount opts := by
      rw [hvals NUM_THREADS]
      rfl
    exact collabsStage_toomany_run env ctx1 st1 (cfgWorkerCount opts) hcoll hwtc hgt hliveS halloc
  · intro env
    cases hm : mg_start env with
    | mk o st =>
      cases o with
      | none => simp
      | some ctx2 =>
        have hb := mg_start_cfg_bound env ctx2 st hm
        simpa using hb

theorem C7_witness :
    ((mg_start envC7w).1 = none ∧ (mg_start envC7w).2.live = ∅ ∧
      Ev.cry "Too many worker threads" ∈ (mg_start envC7w).2.events ∧
      Ev.allocWorkerIds ∉ (mg_start envC7w).2.events) ∧
    ((mg_start envAllOk).1.map (fun c => c.cfg_worker_threads)).getD 0 ≤
      MAX_WORKER_THREADS.toNat :=
  ⟨C7_worker_count_maximum_enforced.1 envC7w ["num_threads", "70000"] (by decide)
      (fun _ => by decide) (by decide) (by decide) (by decide) (by decide) (by decide),
    C7_worker_count_maximum_enforced.2 envAllOk⟩

/-- C6 counterexample: after a fully successful mg_start with an empty caller
option list, the recognized option at index 0 (cgi_interpreter, whose
documented default is NULL) has no configuration entry at all, refuting the
claim that the mapping has exactly one entry per recognized option with
unset options holding their documented default. -/
theorem C6_counterexample_defaultless_option_stays_unset :
    ((mg_start envC6).1.map (fun c => configStr c.config 0)) = some none ∧
    (config_options.getD 0 ⟨"", none⟩).default_value = none := by decide

/-- C6 amended: after a successful mg_start, every option named in the
caller option list holds the last value the caller supplied for it, and
every recognized option the caller did not set holds its documented default
when the table carries one, remaining unset when the documented default is
NULL (specConfigValue). -/
theorem C6_config_last_value_or_default (env : Env) (opts : List String) (i : Nat)
    (hc : env.callocCtxOk = true)
    (htls : env.tlsInitPrev = 0 → env.tlsKeyCreateOk = true)
    (hsync : syncInitOk env = true)
    (hopts : env.options = some opts)
    (hwf : optsWellFormed opts = true)
    (hcoll : collabsOk env = true)
    (hle : ¬ cfgWorkerCount opts > MAX_WORKER_THREADS)
    (hids : cfgWorkerCount opts > 0 → env.allocWorkerIdsOk = true)
    (hev : cfgWorkerCount opts > 0 → env.altQueue = true → env.allocEventsOk = true)
    (hfirst : (cfgWorkerCount opts).toNat > 0 →
      env.wtaAllocOk 0 = true ∧ env.spawnWorkerOk 0 = true) :
    ((mg_start env).1.map (fun c => configStr c.config i)) = some (specConfigValue opts i) := by
  rw [mg_start_pipe env hc htls hsync]
  obtain ⟨ctx1, st1, hconf, hA, hvals, hlen, hcfg0, hids0, hwe0, hsock0, hthr, hliveS,
    hctnil, hatt, hmas, halloc⟩ := configStage_success env opts hopts hwf
  rw [hconf]
  have hwtc : atoi ((configStr ctx1.config NUM_THREADS).getD "") = cfgWorkerCount opts := by
    rw [hvals NUM_THREADS]
    rfl
  obtain ⟨ctxF, stF, hred, hcfgF, hAF, hcfgw, hidsn, hidss, hthrF, hctF, hattF, hmasF⟩ :=
    collabsStage_success_run env ctx1 st1 (cfgWorkerCount opts) hcoll hwtc hle hids hev
  rw [hred]
  have hfirstN : ctxF.cfg_worker_threads > 0 →
      env.wtaAllocOk 0 = true ∧ env.spawnWorkerOk 0 = true := by
    intro hpos
    apply hfirst
    rw [hcfgw] at hpos
    by_cases hp2 : cfgWorkerCount opts > 0
    · rw [if_pos hp2] at hpos
      exact hpos
    · rw [if_neg hp2, hcfg0] at hpos
      omega
  obtain ⟨k, hk⟩ := spawnOutcome_first_ok env ctxF.cfg_worker_threads hfirstN
  obtain ⟨hres, hthrOut, hevOut⟩ := finishStart_run env ctxF stF k hk
  rw [hres]
  show some (configStr ctxF.config i) = some (specConfigValue opts i)
  rw [hcfgF, hvals i]

theorem C6_witness :
    ((mg_start envC6w).1.map (fun c => configStr c.config 2)) =
      some (specConfigValue ["num_threads", "7"] 2) ∧
    specConfigValue ["num_threads", "7"] 2 = some "7" := by
  constructor
  · exact C6_config_last_value_or_default envC6w ["num_threads", "7"] 2 (by decide)
      (fun _ => by decide) (by decide) (by decide) (by decide) (by decide) (by decide)
      (fun _ => by decide) (fun _ _ => by decide) (fun _ => by decide)
  · decide

/-- C4: when the first worker thread spawns successfully and every later
spawn attempt fails, mg_start still succeeds: the resulting context records
exactly one spawned worker, the running threads are the master and worker 0
only, the failure is logged through the worker thread diagnostic, and after
the first failed later spawn no further spawn attempt is made (only attempts
0 and 1 ever appear in the trace). -/
theorem C4_later_worker_failure_nonfatal (env : Env) (opts : List String)
    (hc : env.callocCtxOk = true)
    (htls : env.tlsInitPrev = 0 → env.tlsKeyCreateOk = true)
    (hsync : syncInitOk env = true)
    (hopts : env.options = some opts)
    (hwf : optsWellFormed opts = true)
    (hcoll : collabsOk env = true)
    (hN2 : 2 ≤ (cfgWorkerCount opts).toNat)
    (hle : ¬ cfgWorkerCount opts > MAX_WORKER_THREADS)
    (hids : cfgWorkerCount opts > 0 → env.allocWorkerIdsOk = true)
    (hev : cfgWorkerCount opts > 0 → env.altQueue = true → env.allocEventsOk = true)
    (hmaster : env.spawnMasterOk = true)
    (hwta : ∀ i, env.wtaAllocOk i = true)
    (hs0 : env.spawnWorkerOk 0 = true)
    (hsl : ∀ i, 1 ≤ i → env.spawnWorkerOk i = false) :
    ((mg_start env).1.map (fun c => c.workersStarted)) = some 1 ∧
    (mg_start env).2.threads = [ThreadKind.master, ThreadKind.worker 0] ∧
    Ev.cry "Cannot start worker thread" ∈ (mg_start env).2.events ∧
    (∀ j, 2 ≤ j → Ev.spawnAttempt j ∉ (mg_start env).2.events) := by
  rw [mg_start_pipe env hc htls hsync]
  obtain ⟨ctx1, st1, hconf, hA, hvals, hlen, hcfg0, hids0, hwe0, hsock0, hthr, hliveS,
    hctnil, hatt, hmas, halloc⟩ := configStage_success env opts hopts hwf
  rw [hconf]
  have hwtc : atoi ((configStr ctx1.config NUM_THREADS).getD "") = cfgWorkerCount opts := by
    rw [hvals NUM_THREADS]
    rfl
  obtain ⟨ctxF, stF, hred, hcfgF, hAF, hcfgw, hidsn, hidss, hthrF, hctF, hattF, hmasF⟩ :=
    collabsStage_success_run env ctx1 st1 (cfgWorkerCount opts) hcoll hwtc hle hids hev
  rw [hred]
  have hpos : cfgWorkerCount opts > 0 := by
    by_cases hp : cfgWorkerCount opts > 0
    · exact hp
    · have : (cfgWorkerCount opts).toNat = 0 := Int.toNat_of_nonpos (by omega)
      omega
  have hcfgN : ctxF.cfg_worker_threads = (cfgWorkerCount opts).toNat := by
    rw [hcfgw, if_pos hpos]
  obtain ⟨hk, hspthreads, hspevs⟩ :=
    spawn_pattern_one env (cfgWorkerCount opts).toNat hN2 hwta hs0 hsl
  have hk2 : spawnOutcome env 0 ctxF.cfg_worker_threads = some 1 := by
    rw [hcfgN]
    exact hk
  obtain ⟨hres, hthrOut, hevOut⟩ := finishStart_run env ctxF stF 1 hk2
  refine ⟨?_, ?_, ?_, ?_⟩
  · rw [hres]
    rfl
  · rw [hthrOut, hthrF, hthr, hmaster, hcfgN, hspthreads]
    rfl
  · rw [hevOut, hcfgN, hspevs]
    simp
  · intro j hj
    rw [hevOut, hcfgN, hspevs]
    simp only [List.mem_append]
    rintro (((hin | hin) | hin) | hin)
    · exact hattF j (hatt j) hin
    · revert hin
      cases hcb : env.hasInitContextCb <;> simp
    · simp at hin
    · simp at hin
      rcases hin with h0 | h1
      · omega
      · omega

theorem C4_witness :
    ((mg_start envC4w).1.map (fun c => c.workersStarted)) = some 1 ∧
    (mg_start envC4w).2.threads = [ThreadKind.master, ThreadKind.worker 0] ∧
    Ev.cry "Cannot start worker thread" ∈ (mg_start envC4w).2.events ∧
    (∀ j, 2 ≤ j → Ev.spawnAttempt j ∉ (mg_start envC4w).2.events) :=
  C4_later_worker_failure_nonfatal envC4w ["num_threads", "3"] (by decide)
    (fun _ => by decide) (by decide) (by decide) (by decide) (by decide) (by decide)
    (by decide) (fun _ => by decide) (fun _ _ => by decide) (by decide)
    (fun i => rfl)
    (by decide)
    (fun i hi => by
      show (i == 0) = false
      simp
      omega)

/-- C10: a configured worker thread count of zero or less is not rejected:
with every other step succeeding, mg_start returns a valid context whose
stored worker count is 0, the worker handle list is never allocated (it
stays NULL), no worker spawn is ever attempted, and the only running thread
is the master thread. -/
theorem C10_zero_workers_master_only (env : Env) (opts : List String)
    (hc : env.callocCtxOk = true)
    (htls : env.tlsInitPrev = 0 → env.tlsKeyCreateOk = true)
    (hsync : syncInitOk env = true)
    (hopts : env.options = some opts)
    (hwf : optsWellFormed opts = true)
    (hcoll : collabsOk env = true)
    (hle0 : cfgWorkerCount opts ≤ 0)
    (hmaster : env.spawnMasterOk = true) :
    ((mg_start env).1.map (fun c => c.cfg_worker_threads)) = some 0 ∧
    ((mg_start env).1.map (fun c => c.workerthreadids)) = some none ∧
    (mg_start env).2.threads = [ThreadKind.master] ∧
    (∀ j, Ev.spawnAttempt j ∉ (mg_start env).2.events) := by
  rw [mg_start_pipe env hc htls hsync]
  obtain ⟨ctx1, st1, hconf, hA, hvals, hlen, hcfg0, hids0, hwe0, hsock0, hthr, hliveS,
    hctnil, hatt, hmas, halloc⟩ := configStage_success env opts hopts hwf
  rw [hconf]
  have hwtc : atoi ((configStr ctx1.config NUM_THREADS).getD "") = cfgWorkerCount opts := by
    rw [hvals NUM_THREADS]
    rfl
  have hMAXpos : (0 : Int) < MAX_WORKER_THREADS := by decide
  have hle : ¬ cfgWorkerCount opts > MAX_WORKER_THREADS := by omega
  have hnpos : ¬ cfgWorkerCount opts > 0 := by omega
  obtain ⟨ctxF, stF, hred, hcfgF, hAF, hcfgw, hidsn, hidss, hthrF, hctF, hattF, hmasF⟩ :=
    collabsStage_success_run env ctx1 st1 (cfgWorkerCount opts) hcoll hwtc hle
      (fun hp => absurd hp hnpos) (fun hp => absurd hp hnpos)
  rw [hred]
  have hcfgN : ctxF.cfg_worker_threads = 0 := by
    rw [hcfgw, if_neg hnpos, hcfg0]
  have hk : spawnOutcome env 0 ctxF.cfg_worker_threads = some 0 := by
    rw [hcfgN]
    rfl
  obtain ⟨hres, hthrOut, hevOut⟩ := finishStart_run env ctxF stF 0 hk
  refine ⟨?_, ?_, ?_, ?_⟩
  · rw [hres]
    show some ctxF.cfg_worker_threads = some 0
    rw [hcfgN]
  · rw [hres]
    show some ctxF.workerthreadids = some none
    rw [hidsn hnpos, hids0]
  · rw [hthrOut, hthrF, hthr, hmaster, hcfgN]
    rfl
  · intro j
    rw [hevOut, hcfgN]
    simp only [List.mem_append]
    rintro (((hin | hin) | hin) | hin)
    · exact hattF j (hatt j) hin
    · revert hin
      cases hcb : env.hasInitContextCb <;> simp
    · simp at hin
    · simp [spawnEvs] at hin

theorem C10_witness :
    ((mg_start envC10w).1.map (fun c => c.cfg_worker_threads)) = some 0 ∧
    ((mg_start envC10w).1.map (fun c => c.workerthreadids)) = some none ∧
    (mg_start envC10w).2.threads = [ThreadKind.master] ∧
    (∀ j, Ev.spawnAttempt j ∉ (mg_start envC10w).2.events) :=
  C10_zero_workers_master_only envC10w ["num_threads", "0"] (by decide)
    (fun _ => by decide) (by decide) (by decide) (by decide) (by decide) (by decide)
    (by decide)

/-- C8: inside the option parsing loop of mg_start, an option name appearing
more than once makes a duplicate option warning be emitted through the
logging hook, the later value wins (the stored value is the last supplied
one), and no earlier value string is leaked: every allocation still live
after the loop is either a current config entry or was live before it. -/
theorem C8_duplicate_option_warns_last_wins_no_leak
    (opts : List String) (config : List (Option (Nat × String))) (st : St)
    (base : Finset Nat) (i : Nat)
    (hlen : config.length = config_options.length)
    (hwf : optsWellFormed opts = true)
    (hsub : st.live ⊆ (configIdList config).toFinset ∪ base)
    (hdup : 2 ≤ countIdx opts i) :
    (∃ v, lastVal opts i = some v ∧ configStr (parseOpts opts config st).2.1 i = some v) ∧
    Ev.cry "duplicate option" ∈ (parseOpts opts config st).2.2.events ∧
    (parseOpts opts config st).2.2.live ⊆
      (configIdList (parseOpts opts config st).2.1).toFinset ∪ base := by
  refine ⟨?_, ?_, parseOpts_live opts config st base hlen hsub⟩
  · have hsome := lastVal_isSome_of_countIdx opts i (by omega)
    cases hl : lastVal opts i with
    | none =>
      rw [hl] at hsome
      simp at hsome
    | some v =>
      refine ⟨v, rfl, ?_⟩
      rw [parseOpts_values opts config st hlen hwf i, hl]
  · exact parseOpts_dup_cry opts config st i hwf hlen (Or.inl hdup)

theorem C8_witness :
    configStr (parseOpts ["num_threads", "7", "num_threads", "9"]
      (List.replicate config_options.length none) St.init).2.1 2 = some "9" ∧
    Ev.cry "duplicate option" ∈ (parseOpts ["num_threads", "7", "num_threads", "9"]
      (List.replicate config_options.length none) St.init).2.2.events := by
  obtain ⟨⟨v, hv1, hv2⟩, hcry, hlive⟩ := C8_duplicate_option_warns_last_wins_no_leak
    ["num_threads", "7", "num_threads", "9"] (List.replicate config_options.length none)
    St.init ∅ 2 (by decide) (by decide) (by decide) (by decide)
  have hv9 : lastVal ["num_threads", "7", "num_threads", "9"] 2 = some "9" := by decide
  rw [hv9] at hv1
  injection hv1 with h9
  subst h9
  exact ⟨hv2, hcry⟩
